import Mathlib

/-!
proxy2gateway: HTTPProxy to Gateway API translation

A shallow embedding of `internal/translate/translate.go` and theorems about it.

Conventions of the embedding:

* a Go pointer field is an `Option`; a Go slice is a `List` (a nil slice and an
  empty slice are both `[]`);
* Go named string types (`ObjectName`, `Hostname`, `ProtocolType`, ...) are `String`;
* Go `int` is `Int`; `PortNumber` is an `int32`, and the conversion
  `PortNumber(port)` wraps, see `toPortNumber`;
* the input slice `[]*HTTPProxy` holds decoded objects, so its entries are values;
* a run that ends in a nil-pointer dereference is `none`; a run that returns is
  `some` of the four returned values;
* the logger only emits messages and is left out.
-/

namespace Proxy2Gateway

/-! ## Contour input types (the fields the translation reads) -/

/-- Contour `Service`: a backend service reference. -/
structure Service where
  Name : String
  Port : Int
deriving DecidableEq, Repr

/-- Contour `HeaderMatchCondition`. -/
structure HeaderMatchCondition where
  Name : String
  Present : Bool
  Contains : String
  Exact : String
deriving DecidableEq, Repr

/-- Contour `MatchCondition`: a prefix and an optional header condition. -/
structure MatchCondition where
  Prefix : String
  Header : Option HeaderMatchCondition
deriving DecidableEq, Repr

/-- Contour `Route`. -/
structure Route where
  Conditions : List MatchCondition
  Services : List Service
deriving DecidableEq, Repr

/-- Contour `TCPProxy`. -/
structure TCPProxy where
  Services : List Service
deriving DecidableEq, Repr

/-- Contour `TLS` block of a virtual host. -/
structure TLS where
  SecretName : String
deriving DecidableEq, Repr

/-- Contour `VirtualHost`; `TLS` is a pointer in Go. -/
structure VirtualHost where
  Fqdn : String
  TLS : Option TLS
deriving DecidableEq, Repr

/-- Contour `Include`. -/
structure Include where
  Name : String
  Namespace : String
deriving DecidableEq, Repr

/-- Contour `HTTPProxySpec`; `VirtualHost` and `TCPProxy` are pointers in Go. -/
structure HTTPProxySpec where
  VirtualHost : Option VirtualHost
  Routes : List Route
  TCPProxy : Option TCPProxy
  Includes : List Include
deriving DecidableEq, Repr

/-- Contour `HTTPProxy` with the two `ObjectMeta` fields that are read. -/
structure HTTPProxy where
  Name : String
  Namespace : String
  Spec : HTTPProxySpec
deriving DecidableEq, Repr

/-! ## Gateway API output types -/

/-- The `TypeMeta` of a Kubernetes object. -/
structure TypeMeta where
  Kind : String
  APIVersion : String
deriving DecidableEq, Repr

/-- The `ObjectMeta` fields the translation sets. -/
structure ObjectMeta where
  Name : String
  Namespace : String
deriving DecidableEq, Repr

/-- Gateway API `ParentRef`. -/
structure ParentRef where
  Group : Option String
  Kind : Option String
  Namespace : Option String
  Name : String
  SectionName : Option String
deriving DecidableEq, Repr

/-- Gateway API `CommonRouteSpec`. -/
structure CommonRouteSpec where
  ParentRefs : List ParentRef
deriving DecidableEq, Repr

/-- Gateway API `BackendRef` with its embedded `BackendObjectReference`. -/
structure BackendRef where
  Group : Option String
  Kind : Option String
  Name : String
  Namespace : Option String
  Port : Option Int
  Weight : Option Int
deriving DecidableEq, Repr

/-- Gateway API `HTTPRouteFilter` (never built by the translation). -/
structure HTTPRouteFilter where
  Type_ : String
deriving DecidableEq, Repr

/-- Gateway API `HTTPBackendRef`. -/
structure HTTPBackendRef where
  BackendRef : BackendRef
  Filters : List HTTPRouteFilter
deriving DecidableEq, Repr

/-- Gateway API `HTTPPathMatch`; both fields are pointers in Go. -/
structure HTTPPathMatch where
  Type_ : Option String
  Value : Option String
deriving DecidableEq, Repr

/-- Gateway API `HTTPHeaderMatch` (never built by the translation). -/
structure HTTPHeaderMatch where
  Name : String
  Value : String
deriving DecidableEq, Repr

/-- Gateway API `HTTPRouteMatch`. -/
structure HTTPRouteMatch where
  Path : Option HTTPPathMatch
  Headers : List HTTPHeaderMatch
  QueryParams : List HTTPHeaderMatch
  Method : Option String
deriving DecidableEq, Repr

/-- Gateway API `HTTPRouteRule`. -/
structure HTTPRouteRule where
  Matches : List HTTPRouteMatch
  Filters : List HTTPRouteFilter
  BackendRefs : List HTTPBackendRef
deriving DecidableEq, Repr

/-- Gateway API `HTTPRouteSpec`. -/
structure HTTPRouteSpec where
  CommonRouteSpec : CommonRouteSpec
  Hostnames : List String
  Rules : List HTTPRouteRule
deriving DecidableEq, Repr

/-- Gateway API `HTTPRoute`. -/
structure HTTPRoute where
  TypeMeta : TypeMeta
  ObjectMeta : ObjectMeta
  Spec : HTTPRouteSpec
deriving DecidableEq, Repr

/-- Gateway API `TLSRouteRule`. -/
structure TLSRouteRule where
  BackendRefs : List BackendRef
deriving DecidableEq, Repr

/-- Gateway API `TLSRouteSpec`. -/
structure TLSRouteSpec where
  CommonRouteSpec : CommonRouteSpec
  Hostnames : List String
  Rules : List TLSRouteRule
deriving DecidableEq, Repr

/-- Gateway API `TLSRoute`. -/
structure TLSRoute where
  TypeMeta : TypeMeta
  ObjectMeta : ObjectMeta
  Spec : TLSRouteSpec
deriving DecidableEq, Repr

/-- Gateway API `SecretObjectReference`. -/
structure SecretObjectReference where
  Group : Option String
  Kind : Option String
  Name : String
  Namespace : Option String
deriving DecidableEq, Repr

/-- Gateway API `GatewayTLSConfig`; `Options` is a string map, kept as pairs. -/
structure GatewayTLSConfig where
  Mode : Option String
  CertificateRefs : List SecretObjectReference
  Options : List (String × String)
deriving DecidableEq, Repr

/-- Gateway API `AllowedRoutes`, carried through untouched. -/
structure AllowedRoutes where
  NamespacesFrom : Option String
  Kinds : List String
deriving DecidableEq, Repr

/-- Gateway API `Listener`. -/
structure Listener where
  Name : String
  Hostname : Option String
  Port : Int
  Protocol : String
  TLS : Option GatewayTLSConfig
  AllowedRoutes : Option AllowedRoutes
deriving DecidableEq, Repr

/-- Gateway API `GatewayAddress`. -/
structure GatewayAddress where
  Type_ : Option String
  Value : String
deriving DecidableEq, Repr

/-- Gateway API `GatewaySpec`. -/
structure GatewaySpec where
  GatewayClassName : String
  Listeners : List Listener
  Addresses : List GatewayAddress
deriving DecidableEq, Repr

/-- Gateway API `GatewayStatus`, carried through untouched. -/
structure GatewayStatus where
  Addresses : List GatewayAddress
  Conditions : List String
deriving DecidableEq, Repr

/-- Gateway API `Gateway`. -/
structure Gateway where
  Name : String
  Namespace : String
  Spec : GatewaySpec
  Status : GatewayStatus
deriving DecidableEq, Repr

/-! ## Constants of the Gateway API package -/

/-- `gatewayapi_v1alpha2.GroupName`. -/
def GroupName : String := "gateway.networking.k8s.io"

/-- `gatewayapi_v1alpha2.GroupVersion.String()`. -/
def GroupVersionString : String := "gateway.networking.k8s.io/v1alpha2"

/-- `gatewayapi_v1alpha2.HTTPProtocolType`. -/
def HTTPProtocolType : String := "HTTP"

/-- `gatewayapi_v1alpha2.HTTPSProtocolType`. -/
def HTTPSProtocolType : String := "HTTPS"

/-- `gatewayapi_v1alpha2.TLSProtocolType`. -/
def TLSProtocolType : String := "TLS"

/-- `gatewayapi_v1alpha2.TLSModeTerminate`. -/
def TLSModeTerminate : String := "Terminate"

/-- `gatewayapi_v1alpha2.PathMatchPathPrefix`. -/
def PathMatchPathPrefix : String := "PathPrefix"

/-! ## translate.go -/

/-- The Go conversion `PortNumber(port)` from `int` to `int32`: the low 32 bits,
read as a signed number. -/
def toPortNumber (port : Int) : Int :=
  (port + 2147483648) % 4294967296 - 2147483648

/-- `pathMatchTypePtr`. -/
def pathMatchTypePtr (val : String) : Option String := some val

/-- `portNumPtr`. -/
def portNumPtr (port : Int) : Option Int := some (toPortNumber port)

/-- `groupPtr`. -/
def groupPtr (group : String) : Option String := some group

/-- `kindPtr`. -/
def kindPtr (kind : String) : Option String := some kind

/-- `namespacePtr`. -/
def namespacePtr (ns : String) : Option String := some ns

/-- `tlsModeTypePtr`. -/
def tlsModeTypePtr (mode : String) : Option String := some mode

/-- `listenerHostnamePtr`: always a non-nil pointer, also for the empty string. -/
def listenerHostnamePtr (host : String) : Option String := some host

/-- `commonRouteSpecFromGateway`. -/
def commonRouteSpecFromGateway (gw : Option Gateway) : CommonRouteSpec :=
  match gw with
  | none => { ParentRefs := [] }
  | some g =>
    let parentRef : ParentRef :=
      { Group := groupPtr GroupName
        Kind := kindPtr "Gateway"
        Namespace := none
        Name := g.Name
        SectionName := none }
    let parentRef : ParentRef :=
      if g.Namespace ≠ "" then { parentRef with Namespace := namespacePtr g.Namespace }
      else parentRef
    { ParentRefs := [parentRef] }

/-- `listenerName`: `fmt.Sprintf(prefix, index)`; for a protocol outside the
switch the format is empty and Go prints the unused argument as `%!(EXTRA int=N)`. -/
def listenerName (protocol : String) (index : Nat) : String :=
  if protocol = HTTPProtocolType then "http-" ++ toString index
  else if protocol = HTTPSProtocolType then "https-" ++ toString index
  else if protocol = TLSProtocolType then "tls-" ++ toString index
  else "%!(EXTRA int=" ++ toString index ++ ")"

/-- The test of one iteration of the scan in `addListener`
(`protocolsMatch && portsMatch && hostnamesMatch`). -/
def listenersMatch (l newListener : Listener) : Bool :=
  let protocolsMatch := decide (l.Protocol = newListener.Protocol)
  let portsMatch := decide (l.Port = newListener.Port)
  let hostnamesMatch :=
    (l.Hostname.isNone && newListener.Hostname.isNone) ||
      (match l.Hostname, newListener.Hostname with
        | some a, some b => decide (a = b)
        | _, _ => false)
  protocolsMatch && portsMatch && hostnamesMatch

/-- `addListener`: return the existing slice at the first match, else rename the
new listener by its index and append it. -/
def addListener (existingListeners : List Listener) (newListener : Listener) : List Listener :=
  if existingListeners.any (fun l => listenersMatch l newListener) then existingListeners
  else
    existingListeners ++
      [{ newListener with Name := listenerName newListener.Protocol existingListeners.length }]

/-- The backend reference appended for one service of a TCP proxy (lines 54-59). -/
def tcpBackendRef (s : Service) : BackendRef :=
  { Group := none, Kind := none, Name := s.Name, Namespace := none,
    Port := portNumPtr s.Port, Weight := none }

/-- The loop of lines 52-60: `backendRefs = append(backendRefs, ...)` per service. -/
def tcpBackendRefs (services : List Service) : List BackendRef :=
  services.foldl (fun backendRefs s => backendRefs ++ [tcpBackendRef s]) []

/-- The loop of lines 94-102: every condition with a non-empty prefix overwrites
`match.Path`. -/
def routeMatch (conditions : List MatchCondition) : HTTPRouteMatch :=
  conditions.foldl
    (fun m c =>
      if c.Prefix ≠ "" then
        { m with Path := some { Type_ := pathMatchTypePtr PathMatchPathPrefix, Value := some c.Prefix } }
      else m)
    { Path := none, Headers := [], QueryParams := [], Method := none }

/-- The backend reference appended for one service of a route (lines 106-113). -/
def httpBackendRef (s : Service) : HTTPBackendRef :=
  { BackendRef :=
      { Group := none, Kind := none, Name := s.Name, Namespace := none,
        Port := portNumPtr s.Port, Weight := none }
    Filters := [] }

/-- The loop of lines 104-114. -/
def httpBackendRefs (services : List Service) : List HTTPBackendRef :=
  services.foldl (fun backendRefs s => backendRefs ++ [httpBackendRef s]) []

/-- The loop of lines 92-120: one rule appended per route of the proxy. -/
def httpRules (routes : List Route) : List HTTPRouteRule :=
  routes.foldl
    (fun rules r =>
      rules ++ [{ Matches := [routeMatch r.Conditions], Filters := [],
                  BackendRefs := httpBackendRefs r.Services }])
    []

/-- The `TLSRoute` literal of lines 61-73. -/
def tlsRouteOf (commonRouteSpec : CommonRouteSpec) (proxy : HTTPProxy) (tcp : TCPProxy) : TLSRoute :=
  { TypeMeta := { Kind := "TLSRoute", APIVersion := GroupVersionString }
    ObjectMeta := { Name := proxy.Name, Namespace := proxy.Namespace }
    Spec :=
      { CommonRouteSpec := commonRouteSpec
        Hostnames := []
        Rules := [{ BackendRefs := tcpBackendRefs tcp.Services }] } }

/-- The `HTTPRoute` literal of lines 122-132. -/
def httpRouteOf (commonRouteSpec : CommonRouteSpec) (proxy : HTTPProxy) : HTTPRoute :=
  { TypeMeta := { Kind := "HTTPRoute", APIVersion := GroupVersionString }
    ObjectMeta := { Name := proxy.Name, Namespace := proxy.Namespace }
    Spec :=
      { CommonRouteSpec := commonRouteSpec
        Hostnames := []
        Rules := httpRules proxy.Spec.Routes } }

/-- The listener literal of lines 77-90. -/
def tlsListener (listeners : List Listener) (fqdn secretName : String) : Listener :=
  { Name := "tls-" ++ toString listeners.length
    Port := 443
    Protocol := TLSProtocolType
    Hostname := listenerHostnamePtr fqdn
    TLS := some
      { Mode := tlsModeTypePtr TLSModeTerminate
        CertificateRefs := [{ Group := none, Kind := none, Name := secretName, Namespace := none }]
        Options := [] }
    AllowedRoutes := none }

/-- The listener literal of lines 136-141. -/
def httpListener (listeners : List Listener) (fqdn : String) : Listener :=
  { Name := "http-" ++ toString listeners.length
    Port := 80
    Protocol := HTTPProtocolType
    Hostname := listenerHostnamePtr fqdn
    TLS := none
    AllowedRoutes := none }

/-- `outGateway.Spec.Listeners = ls`. -/
def Gateway.setListeners (g : Gateway) (ls : List Listener) : Gateway :=
  { g with Spec := { g.Spec with Listeners := ls } }

/-- The variables the loop of `HTTPProxiesToGatewayResources` updates. -/
structure LoopState where
  outGateway : Option Gateway
  httpRoutes : List HTTPRoute
  tlsRoutes : List TLSRoute
deriving DecidableEq, Repr

/-- One iteration of the loop of lines 38-143. `none` is a nil-pointer
dereference: of `outGateway`, of `proxy.Spec.VirtualHost`, or of
`proxy.Spec.VirtualHost.TLS`. -/
def processProxy (commonRouteSpec : CommonRouteSpec) (st : LoopState) (proxy : HTTPProxy) :
    Option LoopState :=
  if proxy.Spec.Includes.length > 0 then
    some st
  else
    match proxy.Spec.TCPProxy with
    | some tcp =>
      let tlsRoutes := st.tlsRoutes ++ [tlsRouteOf commonRouteSpec proxy tcp]
      match st.outGateway, proxy.Spec.VirtualHost with
      | some g, some vh =>
        match vh.TLS with
        | some tls =>
          some
            { outGateway := some (g.setListeners
                (addListener g.Spec.Listeners (tlsListener g.Spec.Listeners vh.Fqdn tls.SecretName)))
              httpRoutes := st.httpRoutes
              tlsRoutes := tlsRoutes }
        | none => none
      | _, _ => none
    | none =>
      let httpRoutes := st.httpRoutes ++ [httpRouteOf commonRouteSpec proxy]
      match st.outGateway, proxy.Spec.VirtualHost with
      | some g, some vh =>
        some
          { outGateway := some (g.setListeners
              (addListener g.Spec.Listeners (httpListener g.Spec.Listeners vh.Fqdn)))
            httpRoutes := httpRoutes
            tlsRoutes := st.tlsRoutes }
      | _, _ => none

/-- The `for _, proxy := range proxies` loop. -/
def rangeProxies (commonRouteSpec : CommonRouteSpec) :
    LoopState → List HTTPProxy → Option LoopState
  | st, [] => some st
  | st, proxy :: rest =>
    match processProxy commonRouteSpec st proxy with
    | none => none
    | some st1 => rangeProxies commonRouteSpec st1 rest

/-- The four values `HTTPProxiesToGatewayResources` returns; `err` is the Go `error`. -/
structure Output where
  gateway : Option Gateway
  httpRoutes : List HTTPRoute
  tlsRoutes : List TLSRoute
  err : Option String
deriving DecidableEq, Repr

/-- `HTTPProxiesToGatewayResources`. `baseGateway.DeepCopy()` is the value itself. -/
def HTTPProxiesToGatewayResources (baseGateway : Option Gateway) (proxies : List HTTPProxy) :
    Option Output :=
  let outGateway : Option Gateway :=
    match baseGateway with
    | some g => some g
    | none => none
  let commonRouteSpec := commonRouteSpecFromGateway baseGateway
  match rangeProxies commonRouteSpec
      { outGateway := outGateway, httpRoutes := [], tlsRoutes := [] } proxies with
  | none => none
  | some st =>
    some { gateway := st.outGateway, httpRoutes := st.httpRoutes, tlsRoutes := st.tlsRoutes,
           err := none }

/-! ## Scenario inputs -/

/-- The proxy of scenario A. -/
def echoProxy : HTTPProxy :=
  { Name := "echo", Namespace := "default"
    Spec :=
      { VirtualHost := some { Fqdn := "echo.example.com", TLS := none }
        Routes := [{ Conditions := [{ Prefix := "/", Header := none }]
                     Services := [{ Name := "echo-svc", Port := 80 }] }]
        TCPProxy := none
        Includes := [] } }

/-- The base gateway of scenario B. -/
def contourGateway : Gateway :=
  { Name := "contour", Namespace := "projectcontour"
    Spec := { GatewayClassName := "contour", Listeners := [], Addresses := [] }
    Status := { Addresses := [], Conditions := [] } }

/-- The proxy of scenario B. -/
def tlsProxy : HTTPProxy :=
  { Name := "tls", Namespace := "default"
    Spec :=
      { VirtualHost := some { Fqdn := "tls.example.com", TLS := some { SecretName := "tls-secret" } }
        Routes := []
        TCPProxy := some { Services := [{ Name := "tcp-svc", Port := 443 }] }
        Includes := [] } }

/-- The proxy of scenario B with an include added: the loop skips it. -/
def skippedTLSProxy : HTTPProxy :=
  { tlsProxy with
    Name := "tls-parent"
    Spec := { tlsProxy.Spec with Includes := [{ Name := "child", Namespace := "default" }] } }

/-- A listener on HTTP port 80 with no hostname, as a base gateway may carry. -/
def plainHTTPListener : Listener :=
  { Name := "web", Hostname := none, Port := 80, Protocol := "HTTP", TLS := none,
    AllowedRoutes := none }

/-- A proxy whose virtual host has the empty FQDN. -/
def emptyFqdnProxy : HTTPProxy :=
  { echoProxy with
    Name := "any-host"
    Spec := { echoProxy.Spec with VirtualHost := some { Fqdn := "", TLS := none } } }

/-- A base gateway with one listener, on HTTP port 80 with no hostname. -/
def plainHTTPGateway : Gateway :=
  { contourGateway with
    Spec := { contourGateway.Spec with
      Listeners := [{ Name := "web", Hostname := none, Port := 80, Protocol := "HTTP",
                      TLS := none, AllowedRoutes := none }] } }

/-- A TLS block with nothing set. -/
def emptyTLSConfig : GatewayTLSConfig :=
  { Mode := none, CertificateRefs := [], Options := [] }

/-- A base gateway that already lists the same listener twice. -/
def duplicateListenerGateway : Gateway :=
  { contourGateway with
    Spec := { contourGateway.Spec with
      Listeners := [plainHTTPListener, { plainHTTPListener with Name := "web-again" }] } }

/-- A base gateway with no namespace set. -/
def clusterGateway : Gateway :=
  { contourGateway with Namespace := "" }

/-- A second passthrough proxy for the host of scenario B, with another secret. -/
def tlsProxyOtherSecret : HTTPProxy :=
  { tlsProxy with
    Name := "tls-b"
    Spec := { tlsProxy.Spec with
      VirtualHost := some { Fqdn := "tls.example.com", TLS := some { SecretName := "other-secret" } } } }

/-! ## Helper definitions for the statements -/

/-- Two listeners share the (protocol, port, hostname) triple. -/
def sameTriple (a b : Listener) : Prop :=
  a.Protocol = b.Protocol ∧ a.Port = b.Port ∧ a.Hostname = b.Hostname

/-- The backend references of one output rule are the image of the services. -/
def httpRuleOfRoute (src : Route) (rule : HTTPRouteRule) : Prop :=
  rule.Matches.length = 1 ∧ rule.Filters = [] ∧
    rule.BackendRefs = src.Services.map (fun s =>
      { BackendRef := { Group := none, Kind := none, Name := s.Name, Namespace := none,
                        Port := portNumPtr s.Port, Weight := none }
        Filters := [] })

/-- The path match built from the last condition with a non-empty prefix. -/
def lastPrefixPath (conditions : List MatchCondition) : Option HTTPPathMatch :=
  ((conditions.filter (fun c => decide (c.Prefix ≠ ""))).getLast?).map
    (fun c => { Type_ := some "PathPrefix", Value := some c.Prefix })

/-- No two listeners at different positions share the triple. -/
def distinctTriples (ls : List Listener) : Prop :=
  ∀ (i j : Nat) (hi : i < ls.length) (hj : j < ls.length), i ≠ j → ¬ sameTriple ls[i] ls[j]


/-- A proxy the loop turns into an `HTTPRoute`: no includes, no TCP proxy. -/
def isHTTPSource (p : HTTPProxy) : Bool :=
  decide (p.Spec.Includes = []) && p.Spec.TCPProxy.isNone

/-- A proxy the loop turns into a `TLSRoute`: no includes, a TCP proxy. -/
def isTLSSource (p : HTTPProxy) : Bool :=
  decide (p.Spec.Includes = []) && p.Spec.TCPProxy.isSome

/-- The `TLSRoute` the loop appends for a proxy, if it appends one. -/
def tlsRouteFor (commonRouteSpec : CommonRouteSpec) (p : HTTPProxy) : Option TLSRoute :=
  if p.Spec.Includes = [] then p.Spec.TCPProxy.map (tlsRouteOf commonRouteSpec p) else none

/-- Name and namespace of a proxy. -/
def HTTPProxy.key (p : HTTPProxy) : String × String := (p.Name, p.Namespace)

/-- Name and namespace of an `HTTPRoute`. -/
def HTTPRoute.key (r : HTTPRoute) : String × String := (r.ObjectMeta.Name, r.ObjectMeta.Namespace)

/-- Name and namespace of a `TLSRoute`. -/
def TLSRoute.key (r : TLSRoute) : String × String := (r.ObjectMeta.Name, r.ObjectMeta.Namespace)

/-- The dereferences of one iteration succeed: the proxy has a virtual host, and
its virtual host has a TLS block when the proxy declares a TCP proxy. -/
def hasVirtualHost (p : HTTPProxy) : Prop :=
  ∃ vh, p.Spec.VirtualHost = some vh ∧ (p.Spec.TCPProxy.isSome = true → vh.TLS.isSome = true)

/-- An iteration on this proxy returns when the output gateway is there: the proxy
is skipped, or its dereferences succeed. -/
def canProcess (p : HTTPProxy) : Prop :=
  p.Spec.Includes ≠ [] ∨ hasVirtualHost p

/-- The listener an iteration hands to `addListener`, under the name it carries on a
gateway with no listener (`addListener` replaces the name); `none` when the proxy is
skipped or a dereference fails. -/
def proxyListener (p : HTTPProxy) : Option Listener :=
  if p.Spec.Includes = [] then
    match p.Spec.VirtualHost with
    | none => none
    | some vh =>
      match p.Spec.TCPProxy with
      | none => some (httpListener [] vh.Fqdn)
      | some _ => vh.TLS.map (fun tls => tlsListener [] vh.Fqdn tls.SecretName)
  else none

/-- The listeners of the output gateway after one iteration that returns. -/
def registerProxy (ls : List Listener) (p : HTTPProxy) : List Listener :=
  match proxyListener p with
  | none => ls
  | some l => addListener ls l

/-- The listeners of the output gateway after the loop. -/
def registerAll (ls : List Listener) (proxies : List HTTPProxy) : List Listener :=
  proxies.foldl registerProxy ls

/-- The (protocol, port, hostname) triple of a listener. -/
def Listener.triple (l : Listener) : String × Int × Option String :=
  (l.Protocol, l.Port, l.Hostname)

/-! ## Lemmas on the inner loops -/

/-- The conversion to `PortNumber` leaves every value of the int32 range as it is. -/
theorem portNumPtr_of_int32 (port : Int) (h1 : -2147483648 ≤ port) (h2 : port < 2147483648) :
    portNumPtr port = some port := by
  unfold portNumPtr toPortNumber
  congr 1
  omega

/-- Outside the int32 range the conversion wraps. -/
theorem portNumPtr_wraps : portNumPtr 4294967376 = some 80 := by decide

theorem foldl_append_singleton {α β : Type} (f : α → β) (xs : List α) (init : List β) :
    xs.foldl (fun acc x => acc ++ [f x]) init = init ++ xs.map f := by
  induction xs generalizing init with
  | nil => simp
  | cons x xs ih => simp [ih]

theorem tcpBackendRefs_eq_map (services : List Service) :
    tcpBackendRefs services = services.map tcpBackendRef := by
  simp [tcpBackendRefs, foldl_append_singleton]

theorem httpBackendRefs_eq_map (services : List Service) :
    httpBackendRefs services = services.map httpBackendRef := by
  simp [httpBackendRefs, foldl_append_singleton]

theorem httpRules_eq_map (routes : List Route) :
    httpRules routes = routes.map (fun r =>
      { Matches := [routeMatch r.Conditions], Filters := [],
        BackendRefs := httpBackendRefs r.Services }) := by
  simp [httpRules, foldl_append_singleton]

/-! ## Lemmas on the main loop -/

theorem processProxy_includes (crs : CommonRouteSpec) (st : LoopState) (p : HTTPProxy)
    (h : p.Spec.Includes ≠ []) : processProxy crs st p = some st := by
  have hlen : p.Spec.Includes.length > 0 := List.length_pos.mpr h
  simp [processProxy, hlen]

theorem processProxy_nil_gateway (crs : CommonRouteSpec) (st : LoopState) (p : HTTPProxy)
    (hg : st.outGateway = none) (h : p.Spec.Includes = []) : processProxy crs st p = none := by
  unfold processProxy
  simp only [h, List.length_nil, gt_iff_lt, lt_self_iff_false, if_false, hg]
  cases p.Spec.TCPProxy <;> rfl

theorem processProxy_http (crs : CommonRouteSpec) (st : LoopState) (p : HTTPProxy) (g : Gateway)
    (vh : VirtualHost) (hg : st.outGateway = some g) (hi : p.Spec.Includes = [])
    (ht : p.Spec.TCPProxy = none) (hv : p.Spec.VirtualHost = some vh) :
    processProxy crs st p = some
      { outGateway := some (g.setListeners
          (addListener g.Spec.Listeners (httpListener g.Spec.Listeners vh.Fqdn)))
        httpRoutes := st.httpRoutes ++ [httpRouteOf crs p]
        tlsRoutes := st.tlsRoutes } := by
  unfold processProxy
  simp only [hi, List.length_nil, gt_iff_lt, lt_self_iff_false, if_false, ht, hg, hv]

theorem processProxy_tls (crs : CommonRouteSpec) (st : LoopState) (p : HTTPProxy) (g : Gateway)
    (tcp : TCPProxy) (vh : VirtualHost) (tls : TLS) (hg : st.outGateway = some g)
    (hi : p.Spec.Includes = []) (ht : p.Spec.TCPProxy = some tcp)
    (hv : p.Spec.VirtualHost = some vh) (hs : vh.TLS = some tls) :
    processProxy crs st p = some
      { outGateway := some (g.setListeners
          (addListener g.Spec.Listeners (tlsListener g.Spec.Listeners vh.Fqdn tls.SecretName)))
        httpRoutes := st.httpRoutes
        tlsRoutes := st.tlsRoutes ++ [tlsRouteOf crs p tcp] } := by
  unfold processProxy
  simp only [hi, List.length_nil, gt_iff_lt, lt_self_iff_false, if_false, ht, hg, hv, hs]

/-- What one iteration does when its dereferences succeed. -/
theorem processProxy_ok (crs : CommonRouteSpec) (st : LoopState) (p : HTTPProxy) (g : Gateway)
    (hg : st.outGateway = some g) (hp : hasVirtualHost p) :
    ∃ ls, processProxy crs st p = some
      { outGateway := some (g.setListeners ls)
        httpRoutes := st.httpRoutes ++ (if isHTTPSource p then [httpRouteOf crs p] else [])
        tlsRoutes := st.tlsRoutes ++ (tlsRouteFor crs p).toList } ∧
      (ls = g.Spec.Listeners ∨ ∃ l, ls = addListener g.Spec.Listeners l) := by
  obtain ⟨vh, hv, htls⟩ := hp
  by_cases hi : p.Spec.Includes = []
  · cases ht : p.Spec.TCPProxy with
    | none =>
      refine ⟨addListener g.Spec.Listeners (httpListener g.Spec.Listeners vh.Fqdn), ?_,
        Or.inr ⟨_, rfl⟩⟩
      rw [processProxy_http crs st p g vh hg hi ht hv]
      simp [isHTTPSource, tlsRouteFor, hi, ht]
    | some tcp =>
      have hsome : vh.TLS.isSome = true := htls (by simp [ht])
      obtain ⟨tls, hs⟩ := Option.isSome_iff_exists.mp hsome
      refine ⟨addListener g.Spec.Listeners (tlsListener g.Spec.Listeners vh.Fqdn tls.SecretName),
        ?_, Or.inr ⟨_, rfl⟩⟩
      rw [processProxy_tls crs st p g tcp vh tls hg hi ht hv hs]
      simp [isHTTPSource, tlsRouteFor, hi, ht]
  · refine ⟨g.Spec.Listeners, ?_, Or.inl rfl⟩
    rw [processProxy_includes crs st p hi]
    have hset : g.setListeners g.Spec.Listeners = g := rfl
    cases st
    simp_all [isHTTPSource, tlsRouteFor]

/-- The loop returns when every dereference succeeds, and its route lists are the
images of the proxies it does not skip. -/
theorem rangeProxies_ok (crs : CommonRouteSpec) (proxies : List HTTPProxy) :
    ∀ (st : LoopState) (g : Gateway), st.outGateway = some g →
      (∀ p ∈ proxies, hasVirtualHost p) →
      ∃ ls, rangeProxies crs st proxies = some
        { outGateway := some (g.setListeners ls)
          httpRoutes := st.httpRoutes ++ (proxies.filter isHTTPSource).map (httpRouteOf crs)
          tlsRoutes := st.tlsRoutes ++ proxies.filterMap (tlsRouteFor crs) } := by
  induction proxies with
  | nil =>
    intro st g hg _
    refine ⟨g.Spec.Listeners, ?_⟩
    have hset : g.setListeners g.Spec.Listeners = g := rfl
    cases st
    simp_all [rangeProxies]
  | cons p ps ih =>
    intro st g hg hall
    obtain ⟨ls, hstep, _⟩ := processProxy_ok crs st p g hg (hall p (List.mem_cons_self _ _))
    obtain ⟨ls2, hrest⟩ := ih
      { outGateway := some (g.setListeners ls)
        httpRoutes := st.httpRoutes ++ (if isHTTPSource p then [httpRouteOf crs p] else [])
        tlsRoutes := st.tlsRoutes ++ (tlsRouteFor crs p).toList }
      (g.setListeners ls) rfl (fun q hq => hall q (List.mem_cons_of_mem _ hq))
    refine ⟨ls2, ?_⟩
    have hset : (g.setListeners ls).setListeners ls2 = g.setListeners ls2 := rfl
    simp only [rangeProxies, hstep, hrest, hset]
    cases hsrc : isHTTPSource p <;> cases htr : tlsRouteFor crs p <;>
      simp [List.filter_cons, List.filterMap_cons, hsrc, htr]

/-- With no output gateway the loop returns exactly when it skips every proxy. -/
theorem rangeProxies_nil_gateway (crs : CommonRouteSpec) (proxies : List HTTPProxy) :
    ∀ (st : LoopState), st.outGateway = none →
      ((∀ p ∈ proxies, p.Spec.Includes ≠ []) → rangeProxies crs st proxies = some st) ∧
      ((∃ p ∈ proxies, p.Spec.Includes = []) → rangeProxies crs st proxies = none) := by
  induction proxies with
  | nil => intro st _; simp [rangeProxies]
  | cons p ps ih =>
    intro st hg
    by_cases hi : p.Spec.Includes = []
    · constructor
      · intro hall
        exact absurd hi (hall p (List.mem_cons_self _ _))
      · intro _
        simp [rangeProxies, processProxy_nil_gateway crs st p hg hi]
    · obtain ⟨ih1, ih2⟩ := ih st hg
      constructor
      · intro hall
        simp only [rangeProxies, processProxy_includes crs st p hi]
        exact ih1 (fun q hq => hall q (List.mem_cons_of_mem _ hq))
      · rintro ⟨q, hq, hqi⟩
        simp only [rangeProxies, processProxy_includes crs st p hi]
        rcases List.mem_cons.mp hq with rfl | hq2
        · exact absurd hqi hi
        · exact ih2 ⟨q, hq2, hqi⟩

/-- The shape of the value `HTTPProxiesToGatewayResources` returns. -/
theorem convert_eq (base : Option Gateway) (proxies : List HTTPProxy) :
    HTTPProxiesToGatewayResources base proxies =
      (rangeProxies (commonRouteSpecFromGateway base)
        { outGateway := base, httpRoutes := [], tlsRoutes := [] } proxies).map
        (fun st => { gateway := st.outGateway, httpRoutes := st.httpRoutes,
                     tlsRoutes := st.tlsRoutes, err := none }) := by
  unfold HTTPProxiesToGatewayResources
  cases base <;> simp only [] <;>
    cases rangeProxies _ _ proxies <;> rfl

/-- With a base gateway and every dereference succeeding, the function returns,
with the route lists of `rangeProxies_ok`. -/
theorem convert_ok (gw : Gateway) (proxies : List HTTPProxy)
    (h : ∀ p ∈ proxies, hasVirtualHost p) :
    ∃ ls, HTTPProxiesToGatewayResources (some gw) proxies = some
      { gateway := some (gw.setListeners ls)
        httpRoutes := (proxies.filter isHTTPSource).map
          (httpRouteOf (commonRouteSpecFromGateway (some gw)))
        tlsRoutes := proxies.filterMap (tlsRouteFor (commonRouteSpecFromGateway (some gw)))
        err := none } := by
  obtain ⟨ls, hls⟩ := rangeProxies_ok (commonRouteSpecFromGateway (some gw)) proxies
    { outGateway := some gw, httpRoutes := [], tlsRoutes := [] } gw rfl h
  exact ⟨ls, by rw [convert_eq, hls]; simp⟩

theorem tlsRouteFor_keys (crs : CommonRouteSpec) (proxies : List HTTPProxy) :
    (proxies.filterMap (tlsRouteFor crs)).map TLSRoute.key =
      (proxies.filter isTLSSource).map HTTPProxy.key := by
  induction proxies with
  | nil => rfl
  | cons p ps ih =>
    by_cases hi : p.Spec.Includes = []
    · cases ht : p.Spec.TCPProxy with
      | none => simp [List.filterMap_cons, List.filter_cons, tlsRouteFor, isTLSSource, hi, ht, ih]
      | some tcp =>
        simp [List.filterMap_cons, List.filter_cons, tlsRouteFor, isTLSSource, hi, ht, ih,
          TLSRoute.key, HTTPProxy.key, tlsRouteOf]
    · simp [List.filterMap_cons, List.filter_cons, tlsRouteFor, isTLSSource, hi, ih]

theorem httpRouteOf_keys (crs : CommonRouteSpec) (proxies : List HTTPProxy) :
    (proxies.map (httpRouteOf crs)).map HTTPRoute.key = proxies.map HTTPProxy.key := by
  simp [List.map_map, Function.comp_def, HTTPRoute.key, HTTPProxy.key, httpRouteOf]

theorem filter_sources_length (proxies : List HTTPProxy) :
    (proxies.filter isHTTPSource).length + (proxies.filter isTLSSource).length =
      (proxies.filter (fun p => decide (p.Spec.Includes = []))).length := by
  induction proxies with
  | nil => rfl
  | cons p ps ih =>
    by_cases hi : p.Spec.Includes = [] <;> cases ht : p.Spec.TCPProxy <;>
      simp [List.filter_cons, isHTTPSource, isTLSSource, hi, ht] <;> omega

/-! ## Lemmas on `addListener` -/

theorem listenersMatch_iff (l n : Listener) :
    listenersMatch l n = true ↔ sameTriple l n := by
  unfold listenersMatch sameTriple
  cases hl : l.Hostname <;> cases hn : n.Hostname <;> simp [and_assoc]

theorem addListener_of_match (ls : List Listener) (l : Listener)
    (h : ∃ e ∈ ls, sameTriple e l) : addListener ls l = ls := by
  have hany : ls.any (fun e => listenersMatch e l) = true := by
    obtain ⟨e, he, hm⟩ := h
    exact List.any_eq_true.mpr ⟨e, he, (listenersMatch_iff e l).mpr hm⟩
  simp [addListener, hany]

theorem addListener_of_no_match (ls : List Listener) (l : Listener)
    (h : ¬ ∃ e ∈ ls, sameTriple e l) :
    addListener ls l = ls ++ [{ l with Name := listenerName l.Protocol ls.length }] := by
  have hany : ¬ (ls.any (fun e => listenersMatch e l) = true) := by
    intro hany
    obtain ⟨e, he, hm⟩ := List.any_eq_true.mp hany
    exact h ⟨e, he, (listenersMatch_iff e l).mp hm⟩
  simp [addListener, hany]

theorem addListener_eq_self_iff (ls : List Listener) (l : Listener) :
    addListener ls l = ls ↔ ∃ e ∈ ls, sameTriple e l := by
  constructor
  · intro heq
    by_contra hno
    rw [addListener_of_no_match ls l hno] at heq
    have := congrArg List.length heq
    simp at this
  · exact addListener_of_match ls l

theorem distinctTriples_iff_pairwise (ls : List Listener) :
    distinctTriples ls ↔ ls.Pairwise (fun a b => ¬ sameTriple a b) := by
  rw [List.pairwise_iff_getElem]
  constructor
  · intro h i j hi hj hij
    exact h i j hi hj (Nat.ne_of_lt hij)
  · intro h i j hi hj hij hs
    rcases Nat.lt_or_gt_of_ne hij with hlt | hgt
    · exact h i j hi hj hlt hs
    · exact h j i hj hi hgt ⟨hs.1.symm, hs.2.1.symm, hs.2.2.symm⟩

/-- `addListener` keeps the triples pairwise distinct. -/
theorem addListener_distinctTriples (ls : List Listener) (l : Listener)
    (h : distinctTriples ls) : distinctTriples (addListener ls l) := by
  by_cases hm : ∃ e ∈ ls, sameTriple e l
  · rw [addListener_of_match ls l hm]
    exact h
  · rw [addListener_of_no_match ls l hm]
    rw [distinctTriples_iff_pairwise] at h ⊢
    rw [List.pairwise_append]
    refine ⟨h, List.pairwise_singleton _ _, ?_⟩
    intro a ha b hb hs
    rw [List.mem_singleton] at hb
    subst hb
    exact hm ⟨a, ha, hs⟩

/-! ## The output gateway along the loop -/

/-- One iteration leaves the gateway alone or replaces its listeners by the result
of one `addListener` call. -/
theorem processProxy_gateway (crs : CommonRouteSpec) (st st2 : LoopState) (p : HTTPProxy)
    (g : Gateway) (hg : st.outGateway = some g) (h : processProxy crs st p = some st2) :
    ∃ ls, st2.outGateway = some (g.setListeners ls) ∧
      (ls = g.Spec.Listeners ∨ ∃ l, ls = addListener g.Spec.Listeners l) := by
  by_cases hi : p.Spec.Includes = []
  · cases hv : p.Spec.VirtualHost with
    | none =>
      unfold processProxy at h
      simp only [hi, List.length_nil, gt_iff_lt, lt_self_iff_false, if_false, hg, hv] at h
      cases ht : p.Spec.TCPProxy <;> simp [ht] at h
    | some vh =>
      cases ht : p.Spec.TCPProxy with
      | none =>
        rw [processProxy_http crs st p g vh hg hi ht hv] at h
        cases h
        exact ⟨_, rfl, Or.inr ⟨_, rfl⟩⟩
      | some tcp =>
        cases hs : vh.TLS with
        | none =>
          unfold processProxy at h
          simp [hi, hg, hv, ht, hs] at h
        | some tls =>
          rw [processProxy_tls crs st p g tcp vh tls hg hi ht hv hs] at h
          cases h
          exact ⟨_, rfl, Or.inr ⟨_, rfl⟩⟩
  · rw [processProxy_includes crs st p hi] at h
    cases h
    exact ⟨g.Spec.Listeners, hg, Or.inl rfl⟩

/-- A property of listener sequences that `addListener` preserves holds of the
listeners of the gateway the loop ends with, if it holds at the start. -/
theorem rangeProxies_listeners (crs : CommonRouteSpec) (P : List Listener → Prop)
    (hP : ∀ ls l, P ls → P (addListener ls l)) (proxies : List HTTPProxy) :
    ∀ (st st2 : LoopState) (g : Gateway), st.outGateway = some g → P g.Spec.Listeners →
      rangeProxies crs st proxies = some st2 →
      ∃ ls, st2.outGateway = some (g.setListeners ls) ∧ P ls := by
  induction proxies with
  | nil =>
    intro st st2 g hg hp h
    simp only [rangeProxies, Option.some.injEq] at h
    subst h
    exact ⟨g.Spec.Listeners, hg, hp⟩
  | cons p ps ih =>
    intro st st2 g hg hp h
    cases hstep : processProxy crs st p with
    | none => simp [rangeProxies, hstep] at h
    | some st1 =>
      simp only [rangeProxies, hstep] at h
      obtain ⟨ls, hg1, hls⟩ := processProxy_gateway crs st st1 p g hg hstep
      have hp1 : P (g.setListeners ls).Spec.Listeners := by
        rcases hls with rfl | ⟨l, rfl⟩
        · exact hp
        · exact hP _ _ hp
      obtain ⟨ls2, hg2, hp2⟩ := ih st1 st2 (g.setListeners ls) hg1 hp1 h
      exact ⟨ls2, hg2, hp2⟩

/-- With no output gateway, a loop that returns has changed nothing. -/
theorem rangeProxies_nil_gateway_some (crs : CommonRouteSpec) (proxies : List HTTPProxy)
    (st st2 : LoopState) (hg : st.outGateway = none)
    (h : rangeProxies crs st proxies = some st2) : st2 = st := by
  obtain ⟨hskip, hfail⟩ := rangeProxies_nil_gateway crs proxies st hg
  by_cases hex : ∃ p ∈ proxies, p.Spec.Includes = []
  · rw [hfail hex] at h
    exact Option.noConfusion h
  · have hall : ∀ p ∈ proxies, p.Spec.Includes ≠ [] := fun p hp hi => hex ⟨p, hp, hi⟩
    rw [hskip hall] at h
    exact (Option.some.inj h).symm

/-- A gateway the function returns is the base gateway with other listeners, and
every property `addListener` preserves carries over from the base listeners. -/
theorem convert_listeners (P : List Listener → Prop)
    (hP : ∀ ls l, P ls → P (addListener ls l)) (base : Option Gateway)
    (proxies : List HTTPProxy) (out : Output) (g : Gateway)
    (h : HTTPProxiesToGatewayResources base proxies = some out) (hg : out.gateway = some g) :
    ∃ g0, base = some g0 ∧ g = g0.setListeners g.Spec.Listeners ∧
      (P g0.Spec.Listeners → P g.Spec.Listeners) := by
  rw [convert_eq] at h
  cases hr : rangeProxies (commonRouteSpecFromGateway base)
      { outGateway := base, httpRoutes := [], tlsRoutes := [] } proxies with
  | none => simp [hr] at h
  | some st2 =>
    simp only [hr, Option.map_some', Option.some.injEq] at h
    subst h
    simp only at hg
    cases base with
    | none =>
      have := rangeProxies_nil_gateway_some _ proxies _ st2 rfl hr
      subst this
      exact Option.noConfusion hg
    | some g0 =>
      obtain ⟨ls, hls, hp⟩ := rangeProxies_listeners (commonRouteSpecFromGateway (some g0))
        (fun ls => P g0.Spec.Listeners → P ls) (fun ls l hl h0 => hP ls l (hl h0)) proxies
        _ st2 g0 rfl (fun h0 => h0) hr
      rw [hls] at hg
      have hgeq : g = g0.setListeners ls := (Option.some.inj hg).symm
      subst hgeq
      exact ⟨g0, rfl, rfl, hp⟩

/-! ## The route lists along the loop -/

/-- What one iteration that returns appends to the route lists. -/
theorem processProxy_routes (crs : CommonRouteSpec) (st st2 : LoopState) (p : HTTPProxy)
    (h : processProxy crs st p = some st2) :
    st2.httpRoutes = st.httpRoutes ++ (if isHTTPSource p then [httpRouteOf crs p] else []) ∧
    st2.tlsRoutes = st.tlsRoutes ++ (tlsRouteFor crs p).toList := by
  by_cases hi : p.Spec.Includes = []
  · cases hgw : st.outGateway with
    | none => rw [processProxy_nil_gateway crs st p hgw hi] at h; exact Option.noConfusion h
    | some g =>
      cases hv : p.Spec.VirtualHost with
      | none =>
        unfold processProxy at h
        simp only [hi, List.length_nil, gt_iff_lt, lt_self_iff_false, if_false, hgw, hv] at h
        cases ht : p.Spec.TCPProxy <;> simp [ht] at h
      | some vh =>
        cases ht : p.Spec.TCPProxy with
        | none =>
          rw [processProxy_http crs st p g vh hgw hi ht hv] at h
          cases h
          simp [isHTTPSource, tlsRouteFor, hi, ht]
        | some tcp =>
          cases hs : vh.TLS with
          | none =>
            unfold processProxy at h
            simp [hi, hgw, hv, ht, hs] at h
          | some tls =>
            rw [processProxy_tls crs st p g tcp vh tls hgw hi ht hv hs] at h
            cases h
            simp [isHTTPSource, tlsRouteFor, hi, ht]
  · rw [processProxy_includes crs st p hi] at h
    cases h
    simp [isHTTPSource, tlsRouteFor, hi]

/-- The route lists of a loop that returns. -/
theorem rangeProxies_routes (crs : CommonRouteSpec) (proxies : List HTTPProxy) :
    ∀ (st st2 : LoopState), rangeProxies crs st proxies = some st2 →
      st2.httpRoutes = st.httpRoutes ++ (proxies.filter isHTTPSource).map (httpRouteOf crs) ∧
      st2.tlsRoutes = st.tlsRoutes ++ proxies.filterMap (tlsRouteFor crs) := by
  induction proxies with
  | nil =>
    intro st st2 h
    simp only [rangeProxies, Option.some.injEq] at h
    subst h
    simp
  | cons p ps ih =>
    intro st st2 h
    cases hstep : processProxy crs st p with
    | none => simp [rangeProxies, hstep] at h
    | some st1 =>
      simp only [rangeProxies, hstep] at h
      obtain ⟨h1, h2⟩ := processProxy_routes crs st st1 p hstep
      obtain ⟨h3, h4⟩ := ih st1 st2 h
      rw [h3, h4, h1, h2]
      cases hsrc : isHTTPSource p <;> cases htr : tlsRouteFor crs p <;>
        simp [List.filter_cons, List.filterMap_cons, hsrc, htr]

/-- The route lists of a run that returns. -/
theorem convert_routes (base : Option Gateway) (proxies : List HTTPProxy) (out : Output)
    (h : HTTPProxiesToGatewayResources base proxies = some out) :
    out.httpRoutes =
      (proxies.filter isHTTPSource).map (httpRouteOf (commonRouteSpecFromGateway base)) ∧
    out.tlsRoutes = proxies.filterMap (tlsRouteFor (commonRouteSpecFromGateway base)) ∧
    out.err = none := by
  rw [convert_eq] at h
  cases hr : rangeProxies (commonRouteSpecFromGateway base)
      { outGateway := base, httpRoutes := [], tlsRoutes := [] } proxies with
  | none => simp [hr] at h
  | some st2 =>
    simp only [hr, Option.map_some', Option.some.injEq] at h
    subst h
    obtain ⟨h1, h2⟩ := rangeProxies_routes _ proxies _ st2 hr
    simp only [List.nil_append] at h1 h2
    exact ⟨h1, h2, rfl⟩

/-- The inner loop over conditions: the last non-empty prefix wins. -/
theorem routeMatch_eq (conditions : List MatchCondition) :
    routeMatch conditions =
      { Path := lastPrefixPath conditions, Headers := [], QueryParams := [], Method := none } := by
  induction conditions using List.reverseRecOn with
  | nil => rfl
  | append_singleton cs c ih =>
    have hfold : routeMatch (cs ++ [c]) =
        if c.Prefix ≠ "" then
          { routeMatch cs with
            Path := some { Type_ := pathMatchTypePtr PathMatchPathPrefix, Value := some c.Prefix } }
        else routeMatch cs := by
      simp [routeMatch, List.foldl_append]
    rw [hfold, ih]
    by_cases hc : c.Prefix = ""
    · simp [hc, lastPrefixPath, List.filter_append]
    · simp [hc, lastPrefixPath, List.filter_append, pathMatchTypePtr, PathMatchPathPrefix]

theorem lastPrefixPath_of_last (pre post : List MatchCondition) (c : MatchCondition)
    (hc : c.Prefix ≠ "") (hpost : ∀ d ∈ post, d.Prefix = "") :
    lastPrefixPath (pre ++ c :: post) = some { Type_ := some "PathPrefix", Value := some c.Prefix } := by
  have hnil : post.filter (fun d => decide (d.Prefix ≠ "")) = [] :=
    List.filter_eq_nil_iff.mpr (fun d hd => by simp [hpost d hd])
  have hpos : decide (c.Prefix ≠ "") = true := decide_eq_true hc
  have hf : (c :: post).filter (fun d => decide (d.Prefix ≠ "")) = [c] := by
    simp only [List.filter_cons, hpos, hnil, if_true]
  unfold lastPrefixPath
  rw [List.filter_append, hf]
  simp

theorem lastPrefixPath_of_none (conditions : List MatchCondition)
    (h : ∀ c ∈ conditions, c.Prefix = "") : lastPrefixPath conditions = none := by
  have hnil : conditions.filter (fun d => decide (d.Prefix ≠ "")) = [] :=
    List.filter_eq_nil_iff.mpr (fun d hd => by simp [h d hd])
  unfold lastPrefixPath
  rw [hnil]
  rfl

theorem lastPrefixPath_congr (cs1 cs2 : List MatchCondition)
    (h : cs1.map (fun c => c.Prefix) = cs2.map (fun c => c.Prefix)) :
    lastPrefixPath cs1 = lastPrefixPath cs2 := by
  have key : ∀ cs : List MatchCondition, lastPrefixPath cs =
      (((cs.map (fun c => c.Prefix)).filter (fun x => decide (x ≠ ""))).getLast?).map
        (fun x => { Type_ := some "PathPrefix", Value := some x }) := by
    intro cs
    induction cs using List.reverseRecOn with
    | nil => rfl
    | append_singleton cs c _ =>
      by_cases hc : c.Prefix = "" <;>
        simp_all [lastPrefixPath, List.filter_append, List.filter_cons, List.filter_map,
          Function.comp_def]
  rw [key, key, h]

/-- The rules built for the routes of a proxy. -/
theorem httpRules_forall₂ (routes : List Route) :
    List.Forall₂ httpRuleOfRoute routes (httpRules routes) := by
  rw [httpRules_eq_map, List.forall₂_map_right_iff, List.forall₂_same]
  intro r _
  refine ⟨rfl, rfl, ?_⟩
  simp only [httpBackendRefs_eq_map]
  rfl

/-- The TLS routes of the loop, paired with their source proxies. -/
theorem tlsRouteFor_forall₂ (crs : CommonRouteSpec) (R : HTTPProxy → TLSRoute → Prop)
    (hR : ∀ p tcp, p.Spec.Includes = [] → p.Spec.TCPProxy = some tcp →
      R p (tlsRouteOf crs p tcp)) (proxies : List HTTPProxy) :
    List.Forall₂ R (proxies.filter isTLSSource) (proxies.filterMap (tlsRouteFor crs)) := by
  induction proxies with
  | nil => exact List.Forall₂.nil
  | cons p ps ih =>
    by_cases hi : p.Spec.Includes = []
    · cases ht : p.Spec.TCPProxy with
      | none =>
        simpa [List.filterMap_cons, List.filter_cons, tlsRouteFor, isTLSSource, hi, ht] using ih
      | some tcp =>
        have hsrc : isTLSSource p = true := by simp [isTLSSource, hi, ht]
        have hfor : tlsRouteFor crs p = some (tlsRouteOf crs p tcp) := by
          simp [tlsRouteFor, hi, ht]
        rw [List.filter_cons_of_pos hsrc, List.filterMap_cons_some hfor]
        exact List.Forall₂.cons (hR p tcp hi ht) ih
    · simpa [List.filterMap_cons, List.filter_cons, tlsRouteFor, isTLSSource, hi] using ih

/-- The parent reference derived from a base gateway. -/
theorem commonRouteSpecFromGateway_some (gw : Gateway) :
    ∃ pr, (commonRouteSpecFromGateway (some gw)).ParentRefs = [pr] ∧ pr.Name = gw.Name ∧
      pr.Group = some "gateway.networking.k8s.io" ∧ pr.Kind = some "Gateway" ∧
      pr.Namespace = (if gw.Namespace = "" then none else some gw.Namespace) ∧
      pr.SectionName = none := by
  by_cases hns : gw.Namespace = ""
  · refine ⟨{ Group := groupPtr GroupName, Kind := kindPtr "Gateway", Namespace := none,
              Name := gw.Name, SectionName := none }, ?_, rfl, rfl, rfl, ?_, rfl⟩
    · simp [commonRouteSpecFromGateway, hns]
    · simp [hns]
  · refine ⟨{ Group := groupPtr GroupName, Kind := kindPtr "Gateway",
              Namespace := namespacePtr gw.Namespace, Name := gw.Name, SectionName := none },
      ?_, rfl, rfl, rfl, ?_, rfl⟩
    · simp [commonRouteSpecFromGateway, hns]
    · simp [hns, namespacePtr]

/-- A run on one proxy is one iteration of the loop. -/
theorem convert_singleton (base : Option Gateway) (p : HTTPProxy) :
    HTTPProxiesToGatewayResources base [p] =
      (processProxy (commonRouteSpecFromGateway base)
        { outGateway := base, httpRoutes := [], tlsRoutes := [] } p).map
        (fun st => { gateway := st.outGateway, httpRoutes := st.httpRoutes,
                     tlsRoutes := st.tlsRoutes, err := none }) := by
  rw [convert_eq]
  simp only [rangeProxies]
  cases processProxy (commonRouteSpecFromGateway base)
    { outGateway := base, httpRoutes := [], tlsRoutes := [] } p <;> rfl

/-! ## The exact result of the loop -/

/-- The name a new listener carries on entry plays no part in `addListener`. -/
theorem addListener_name (ls : List Listener) (l : Listener) (name : String) :
    addListener ls { l with Name := name } = addListener ls l := rfl

/-- One iteration on a proxy that can be processed. -/
theorem processProxy_exact (crs : CommonRouteSpec) (st : LoopState) (p : HTTPProxy)
    (g : Gateway) (hg : st.outGateway = some g) (hc : canProcess p) :
    processProxy crs st p = some
      { outGateway := some (g.setListeners (registerProxy g.Spec.Listeners p))
        httpRoutes := st.httpRoutes ++ (if isHTTPSource p then [httpRouteOf crs p] else [])
        tlsRoutes := st.tlsRoutes ++ (tlsRouteFor crs p).toList } := by
  by_cases hi : p.Spec.Includes = []
  · rcases hc with hne | ⟨vh, hv, htls⟩
    · exact absurd hi hne
    · cases ht : p.Spec.TCPProxy with
      | none =>
        rw [processProxy_http crs st p g vh hg hi ht hv]
        have hreg : registerProxy g.Spec.Listeners p =
            addListener g.Spec.Listeners (httpListener g.Spec.Listeners vh.Fqdn) := by
          simp only [registerProxy, proxyListener, hi, hv, ht, if_true]
          rfl
        simp [isHTTPSource, tlsRouteFor, hi, ht, hreg]
      | some tcp =>
        obtain ⟨tls, hs⟩ := Option.isSome_iff_exists.mp (htls (by simp [ht]))
        rw [processProxy_tls crs st p g tcp vh tls hg hi ht hv hs]
        have hreg : registerProxy g.Spec.Listeners p =
            addListener g.Spec.Listeners (tlsListener g.Spec.Listeners vh.Fqdn tls.SecretName) := by
          simp only [registerProxy, proxyListener, hi, hv, ht, hs, if_true, Option.map_some']
          rfl
        simp [isHTTPSource, tlsRouteFor, hi, ht, hreg]
  · rw [processProxy_includes crs st p hi]
    have hreg : registerProxy g.Spec.Listeners p = g.Spec.Listeners := by
      simp [registerProxy, proxyListener, hi]
    have hset : g.setListeners g.Spec.Listeners = g := rfl
    cases st
    simp_all [isHTTPSource, tlsRouteFor]

/-- An iteration that returns was on a proxy that can be processed. -/
theorem processProxy_canProcess (crs : CommonRouteSpec) (st st2 : LoopState) (p : HTTPProxy)
    (h : processProxy crs st p = some st2) : canProcess p := by
  by_cases hi : p.Spec.Includes = []
  · right
    cases hgw : st.outGateway with
    | none => rw [processProxy_nil_gateway crs st p hgw hi] at h; exact Option.noConfusion h
    | some g =>
      cases hv : p.Spec.VirtualHost with
      | none =>
        unfold processProxy at h
        simp only [hi, List.length_nil, gt_iff_lt, lt_self_iff_false, if_false, hgw, hv] at h
        cases ht : p.Spec.TCPProxy <;> simp [ht] at h
      | some vh =>
        refine ⟨vh, hv, ?_⟩
        intro htcp
        obtain ⟨tcp, ht⟩ := Option.isSome_iff_exists.mp htcp
        cases hs : vh.TLS with
        | none =>
          unfold processProxy at h
          simp [hi, hgw, hv, ht, hs] at h
        | some tls => rfl
  · exact Or.inl hi

/-- The loop on proxies that can all be processed. -/
theorem rangeProxies_exact (crs : CommonRouteSpec) (proxies : List HTTPProxy) :
    ∀ (st : LoopState) (g : Gateway), st.outGateway = some g →
      (∀ p ∈ proxies, canProcess p) →
      rangeProxies crs st proxies = some
        { outGateway := some (g.setListeners (registerAll g.Spec.Listeners proxies))
          httpRoutes := st.httpRoutes ++ (proxies.filter isHTTPSource).map (httpRouteOf crs)
          tlsRoutes := st.tlsRoutes ++ proxies.filterMap (tlsRouteFor crs) } := by
  induction proxies with
  | nil =>
    intro st g hg _
    have hset : g.setListeners g.Spec.Listeners = g := rfl
    cases st
    simp_all [rangeProxies, registerAll]
  | cons p ps ih =>
    intro st g hg hall
    have hstep := processProxy_exact crs st p g hg (hall p (List.mem_cons_self _ _))
    have hrest := ih
      { outGateway := some (g.setListeners (registerProxy g.Spec.Listeners p))
        httpRoutes := st.httpRoutes ++ (if isHTTPSource p then [httpRouteOf crs p] else [])
        tlsRoutes := st.tlsRoutes ++ (tlsRouteFor crs p).toList }
      (g.setListeners (registerProxy g.Spec.Listeners p)) rfl
      (fun q hq => hall q (List.mem_cons_of_mem _ hq))
    simp only [rangeProxies, hstep, hrest]
    have hset : ∀ ls ls2, (g.setListeners ls).setListeners ls2 = g.setListeners ls2 :=
      fun _ _ => rfl
    have hls : (g.setListeners (registerProxy g.Spec.Listeners p)).Spec.Listeners =
        registerProxy g.Spec.Listeners p := rfl
    rw [hset, hls]
    cases hsrc : isHTTPSource p <;> cases htr : tlsRouteFor crs p <;>
      simp [List.filter_cons, List.filterMap_cons, hsrc, htr, registerAll]

/-- A loop that returns ran on proxies that can all be processed. -/
theorem rangeProxies_canProcess (crs : CommonRouteSpec) (proxies : List HTTPProxy) :
    ∀ (st st2 : LoopState), rangeProxies crs st proxies = some st2 →
      ∀ p ∈ proxies, canProcess p := by
  induction proxies with
  | nil => intro _ _ _ p hp; exact absurd hp (List.not_mem_nil p)
  | cons q qs ih =>
    intro st st2 h p hp
    cases hstep : processProxy crs st q with
    | none => simp [rangeProxies, hstep] at h
    | some st1 =>
      simp only [rangeProxies, hstep] at h
      rcases List.mem_cons.mp hp with rfl | hp2
      · exact processProxy_canProcess crs st st1 p hstep
      · exact ih st1 st2 h p hp2

/-- The run on a base gateway and proxies that can all be processed. -/
theorem convert_exact (gw : Gateway) (proxies : List HTTPProxy)
    (h : ∀ p ∈ proxies, canProcess p) :
    HTTPProxiesToGatewayResources (some gw) proxies = some
      { gateway := some (gw.setListeners (registerAll gw.Spec.Listeners proxies))
        httpRoutes := (proxies.filter isHTTPSource).map
          (httpRouteOf (commonRouteSpecFromGateway (some gw)))
        tlsRoutes := proxies.filterMap (tlsRouteFor (commonRouteSpecFromGateway (some gw)))
        err := none } := by
  rw [convert_eq, rangeProxies_exact _ proxies _ gw rfl h]
  simp

/-- A run that returns ran on proxies that can all be processed. -/
theorem convert_canProcess (base : Option Gateway) (proxies : List HTTPProxy) (out : Output)
    (h : HTTPProxiesToGatewayResources base proxies = some out) :
    ∀ p ∈ proxies, canProcess p := by
  rw [convert_eq] at h
  cases hr : rangeProxies (commonRouteSpecFromGateway base)
      { outGateway := base, httpRoutes := [], tlsRoutes := [] } proxies with
  | none => simp [hr] at h
  | some st2 => exact rangeProxies_canProcess _ proxies _ st2 hr

/-- The listeners after the loop are those of `addListener` called in turn on the
listeners of the proxies. -/
theorem registerAll_eq_foldl (ls : List Listener) (proxies : List HTTPProxy) :
    registerAll ls proxies = (proxies.filterMap proxyListener).foldl addListener ls := by
  unfold registerAll
  induction proxies generalizing ls with
  | nil => rfl
  | cons p ps ih =>
    cases hp : proxyListener p with
    | none => simp [List.filterMap_cons, hp, registerProxy, ih]
    | some l => simp [List.filterMap_cons, hp, registerProxy, ih]

/-! ## `addListener` called in turn -/

theorem mem_addListener_of_mem (ls : List Listener) (l e : Listener) (he : e ∈ ls) :
    e ∈ addListener ls l := by
  by_cases hm : ∃ x ∈ ls, sameTriple x l
  · rw [addListener_of_match ls l hm]; exact he
  · rw [addListener_of_no_match ls l hm]; exact List.mem_append_left _ he

theorem exists_sameTriple_addListener (ls : List Listener) (l : Listener) :
    ∃ e ∈ addListener ls l, sameTriple e l := by
  by_cases hm : ∃ x ∈ ls, sameTriple x l
  · rw [addListener_of_match ls l hm]; exact hm
  · rw [addListener_of_no_match ls l hm]
    exact ⟨_, List.mem_append_right _ (List.mem_singleton.mpr rfl), rfl, rfl, rfl⟩

/-- A property that each call of `addListener` preserves holds after all calls. -/
theorem foldl_addListener_invariant (P : List Listener → Prop) (news : List Listener) :
    ∀ ls : List Listener, (∀ xs l, l ∈ news → P xs → P (addListener xs l)) → P ls →
      P (news.foldl addListener ls) := by
  induction news with
  | nil => intro ls _ h; exact h
  | cons n ns ih =>
    intro ls hP h
    exact ih (addListener ls n) (fun xs l hl => hP xs l (List.mem_cons_of_mem _ hl))
      (hP ls n (List.mem_cons_self _ _) h)

theorem mem_foldl_addListener_of_mem (news ls : List Listener) (e : Listener) (he : e ∈ ls) :
    e ∈ news.foldl addListener ls :=
  foldl_addListener_invariant (fun xs => e ∈ xs) news ls
    (fun xs l _ h => mem_addListener_of_mem xs l e h) he

/-- Every listener handed to `addListener` has a listener with its triple in the end. -/
theorem foldl_addListener_covers (news : List Listener) :
    ∀ ls : List Listener, ∀ l ∈ news, ∃ e ∈ news.foldl addListener ls, sameTriple e l := by
  induction news with
  | nil => intro _ l hl; exact absurd hl (List.not_mem_nil l)
  | cons n ns ih =>
    intro ls l hl
    rcases List.mem_cons.mp hl with rfl | hl2
    · obtain ⟨e, he, hs⟩ := exists_sameTriple_addListener ls l
      exact ⟨e, mem_foldl_addListener_of_mem ns _ e he, hs⟩
    · exact ih (addListener ls n) l hl2

/-- Nothing is appended when every new listener already has its triple listed. -/
theorem foldl_addListener_fixed (news : List Listener) (ls : List Listener)
    (h : ∀ l ∈ news, ∃ e ∈ ls, sameTriple e l) : news.foldl addListener ls = ls := by
  induction news with
  | nil => rfl
  | cons n ns ih =>
    rw [List.foldl_cons, addListener_of_match ls n (h n (List.mem_cons_self _ _))]
    exact ih (fun l hl => h l (List.mem_cons_of_mem _ hl))

/-- The triples listed in the end are those listed at the start and those of the new
listeners. -/
theorem triple_mem_foldl_addListener (news : List Listener) :
    ∀ (ls : List Listener) (t : String × Int × Option String),
      t ∈ (news.foldl addListener ls).map Listener.triple ↔
        t ∈ ls.map Listener.triple ∨ t ∈ news.map Listener.triple := by
  have step : ∀ (ls : List Listener) (l : Listener) (t : String × Int × Option String),
      t ∈ (addListener ls l).map Listener.triple ↔
        t ∈ ls.map Listener.triple ∨ t = l.triple := by
    intro ls l t
    by_cases hm : ∃ x ∈ ls, sameTriple x l
    · rw [addListener_of_match ls l hm]
      constructor
      · exact Or.inl
      · rintro (h | rfl)
        · exact h
        · obtain ⟨x, hx, h1, h2, h3⟩ := hm
          exact List.mem_map.mpr ⟨x, hx, by simp [Listener.triple, h1, h2, h3]⟩
    · rw [addListener_of_no_match ls l hm]
      simp [Listener.triple, eq_comm]
  induction news with
  | nil => intro ls t; simp
  | cons n ns ih =>
    intro ls t
    rw [List.foldl_cons, ih, step]
    simp only [List.map_cons, List.mem_cons]
    tauto

/-- The listeners at the start stay in front, and each appended listener is named
after its protocol and its position. -/
theorem foldl_addListener_names (news base : List Listener) :
    ∃ rest, news.foldl addListener base = base ++ rest ∧
      ∀ (i : Nat) (hi : i < rest.length),
        rest[i].Name = listenerName rest[i].Protocol (base.length + i) ∧
        ∃ l ∈ news, rest[i] = { l with Name := rest[i].Name } := by
  apply foldl_addListener_invariant
    (fun xs => ∃ rest, xs = base ++ rest ∧
      ∀ (i : Nat) (hi : i < rest.length),
        rest[i].Name = listenerName rest[i].Protocol (base.length + i) ∧
        ∃ l ∈ news, rest[i] = { l with Name := rest[i].Name })
  · rintro xs l hl ⟨rest, rfl, hrest⟩
    by_cases hm : ∃ x ∈ base ++ rest, sameTriple x l
    · rw [addListener_of_match _ l hm]
      exact ⟨rest, rfl, hrest⟩
    · rw [addListener_of_no_match _ l hm]
      refine ⟨rest ++ [{ l with Name := listenerName l.Protocol (base ++ rest).length }],
        by simp, ?_⟩
      intro i hi
      by_cases hlt : i < rest.length
      · rw [List.getElem_append_left hlt]
        exact hrest i hlt
      · have hlen : i = rest.length := by
          simp only [List.length_append, List.length_singleton] at hi
          omega
        subst hlen
        have hget : (rest ++ [{ l with Name := listenerName l.Protocol (base ++ rest).length }])[
            rest.length] = { l with Name := listenerName l.Protocol (base ++ rest).length } := by
          simp
        rw [hget]
        exact ⟨by simp, l, hl, rfl⟩
  · exact ⟨[], by simp, fun i hi => absurd hi (Nat.not_lt_zero i)⟩

/-! ## The listener of a proxy -/

/-- The listener of a proxy that is neither skipped nor failing. -/
theorem proxyListener_of_canProcess (p : HTTPProxy) (hi : p.Spec.Includes = [])
    (hc : canProcess p) :
    ∃ vh l, p.Spec.VirtualHost = some vh ∧ proxyListener p = some l ∧
      l.Hostname = some vh.Fqdn ∧
      l.Protocol = (if p.Spec.TCPProxy.isSome then "TLS" else "HTTP") ∧
      l.Port = (if p.Spec.TCPProxy.isSome then 443 else 80) := by
  rcases hc with hne | ⟨vh, hv, htls⟩
  · exact absurd hi hne
  · cases ht : p.Spec.TCPProxy with
    | none =>
      exact ⟨vh, httpListener [] vh.Fqdn, hv, by simp [proxyListener, hi, hv, ht], rfl, rfl, rfl⟩
    | some tcp =>
      obtain ⟨tls, hs⟩ := Option.isSome_iff_exists.mp (htls (by simp [ht]))
      exact ⟨vh, tlsListener [] vh.Fqdn tls.SecretName, hv,
        by simp [proxyListener, hi, hv, ht, hs], rfl, rfl, rfl⟩

/-- What the listener of a proxy looks like. -/
theorem proxyListener_some (p : HTTPProxy) (l : Listener) (h : proxyListener p = some l) :
    p.Spec.Includes = [] ∧ ∃ vh, p.Spec.VirtualHost = some vh ∧
      ((p.Spec.TCPProxy = none ∧ l = httpListener [] vh.Fqdn) ∨
        (p.Spec.TCPProxy.isSome = true ∧ ∃ tls, vh.TLS = some tls ∧
          l = tlsListener [] vh.Fqdn tls.SecretName)) := by
  by_cases hi : p.Spec.Includes = []
  · refine ⟨hi, ?_⟩
    cases hv : p.Spec.VirtualHost with
    | none => simp [proxyListener, hi, hv] at h
    | some vh =>
      refine ⟨vh, rfl, ?_⟩
      cases ht : p.Spec.TCPProxy with
      | none =>
        simp only [proxyListener, hi, hv, ht, if_true, Option.some.injEq] at h
        exact Or.inl ⟨rfl, h.symm⟩
      | some tcp =>
        cases hs : vh.TLS with
        | none => simp [proxyListener, hi, hv, ht, hs] at h
        | some tls =>
          simp only [proxyListener, hi, hv, ht, hs, if_true, Option.map_some',
            Option.some.injEq] at h
          exact Or.inr ⟨rfl, tls, rfl, h.symm⟩
  · simp [proxyListener, hi] at h

/-! ## Parent references and skipped proxies -/

/-- The common route spec derived from a base gateway. -/
theorem commonRouteSpecFromGateway_eq (gw : Gateway) :
    commonRouteSpecFromGateway (some gw) =
      { ParentRefs :=
          [{ Group := some "gateway.networking.k8s.io", Kind := some "Gateway",
             Namespace := if gw.Namespace = "" then none else some gw.Namespace,
             Name := gw.Name, SectionName := none }] } := by
  by_cases hns : gw.Namespace = "" <;>
    simp [commonRouteSpecFromGateway, hns, groupPtr, kindPtr, namespacePtr, GroupName]

/-- Every route of a run that returns carries the common route spec. -/
theorem convert_parentRefs (base : Option Gateway) (proxies : List HTTPProxy) (out : Output)
    (h : HTTPProxiesToGatewayResources base proxies = some out) :
    (∀ r ∈ out.httpRoutes, r.Spec.CommonRouteSpec = commonRouteSpecFromGateway base) ∧
    (∀ r ∈ out.tlsRoutes, r.Spec.CommonRouteSpec = commonRouteSpecFromGateway base) := by
  obtain ⟨h1, h2, _⟩ := convert_routes base proxies out h
  constructor
  · intro r hr
    rw [h1] at hr
    obtain ⟨p, _, rfl⟩ := List.mem_map.mp hr
    rfl
  · intro r hr
    rw [h2] at hr
    obtain ⟨p, _, hp⟩ := List.mem_filterMap.mp hr
    unfold tlsRouteFor at hp
    by_cases hi : p.Spec.Includes = []
    · cases ht : p.Spec.TCPProxy with
      | none => simp [hi, ht] at hp
      | some tcp =>
        simp only [hi, ht, if_true, Option.map_some', Option.some.injEq] at hp
        subst hp
        rfl
    · simp [hi] at hp

/-- The loop on a sequence and on the sequence without its skipped proxies. -/
theorem rangeProxies_filter (crs : CommonRouteSpec) (proxies : List HTTPProxy) :
    ∀ st : LoopState, rangeProxies crs st proxies =
      rangeProxies crs st (proxies.filter (fun p => decide (p.Spec.Includes = []))) := by
  induction proxies with
  | nil => intro st; rfl
  | cons p ps ih =>
    intro st
    by_cases hi : p.Spec.Includes = []
    · have hpos : decide (p.Spec.Includes = []) = true := decide_eq_true hi
      simp only [List.filter_cons, hpos, if_true, rangeProxies]
      cases processProxy crs st p with
      | none => rfl
      | some st1 => exact ih st1
    · have hneg : decide (p.Spec.Includes = []) = false := decide_eq_false hi
      simp only [List.filter_cons, hneg, rangeProxies, processProxy_includes crs st p hi]
      exact ih st

/-! ## The gateway of a run that returns -/

/-- The gateway a run on a supplied base gateway returns. -/
theorem convert_gateway (gw : Gateway) (proxies : List HTTPProxy) (out : Output)
    (h : HTTPProxiesToGatewayResources (some gw) proxies = some out) :
    out = { gateway := some (gw.setListeners
              ((proxies.filterMap proxyListener).foldl addListener gw.Spec.Listeners))
            httpRoutes := (proxies.filter isHTTPSource).map
              (httpRouteOf (commonRouteSpecFromGateway (some gw)))
            tlsRoutes := proxies.filterMap (tlsRouteFor (commonRouteSpecFromGateway (some gw)))
            err := none } := by
  have hc := convert_canProcess (some gw) proxies out h
  rw [convert_exact gw proxies hc, registerAll_eq_foldl] at h
  exact (Option.some.inj h).symm

theorem listenerName_http (n : Nat) : listenerName "HTTP" n = "http-" ++ toString n := by
  simp [listenerName, HTTPProtocolType]

/-! ## Reordering the proxies -/

/-- Reordering the proxies does not change whether the run returns, nor which
(protocol, port, hostname) triples the returned gateway lists. -/
theorem convert_perm_triples (gw : Gateway) (ps1 ps2 : List HTTPProxy) (hperm : ps1.Perm ps2) :
    ((∃ out1, HTTPProxiesToGatewayResources (some gw) ps1 = some out1) ↔
      ∃ out2, HTTPProxiesToGatewayResources (some gw) ps2 = some out2) ∧
    ∀ out1 out2 g1 g2, HTTPProxiesToGatewayResources (some gw) ps1 = some out1 →
      HTTPProxiesToGatewayResources (some gw) ps2 = some out2 →
      out1.gateway = some g1 → out2.gateway = some g2 →
      ∀ t, t ∈ g1.Spec.Listeners.map Listener.triple ↔
        t ∈ g2.Spec.Listeners.map Listener.triple := by
  constructor
  · constructor
    · rintro ⟨out1, h1⟩
      have hc := convert_canProcess (some gw) ps1 out1 h1
      exact ⟨_, convert_exact gw ps2 (fun p hp => hc p (hperm.mem_iff.mpr hp))⟩
    · rintro ⟨out2, h2⟩
      have hc := convert_canProcess (some gw) ps2 out2 h2
      exact ⟨_, convert_exact gw ps1 (fun p hp => hc p (hperm.mem_iff.mp hp))⟩
  · intro out1 out2 g1 g2 h1 h2 hg1 hg2 t
    have e1 := convert_gateway gw ps1 out1 h1
    have e2 := convert_gateway gw ps2 out2 h2
    subst e1 e2
    simp only [Option.some.injEq] at hg1 hg2
    subst hg1 hg2
    show t ∈ ((ps1.filterMap proxyListener).foldl addListener gw.Spec.Listeners).map
        Listener.triple ↔
      t ∈ ((ps2.filterMap proxyListener).foldl addListener gw.Spec.Listeners).map
        Listener.triple
    rw [triple_mem_foldl_addListener, triple_mem_foldl_addListener]
    have hp : ((ps1.filterMap proxyListener).map Listener.triple).Perm
        ((ps2.filterMap proxyListener).map Listener.triple) :=
      (hperm.filterMap proxyListener).map Listener.triple
    rw [hp.mem_iff]

/-! ## Claims -/

/-- C1, counterexample. The base gateway is supplied and the only proxy has a
virtual host, a TLS secret and a TCP passthrough, so every proxy of the sequence
has a passthrough; it also declares an include, and the function returns no
TLSRoute at all, not one per proxy. -/
theorem C1_counterexample_passthrough_with_includes :
    hasVirtualHost skippedTLSProxy ∧
    (∀ p ∈ [skippedTLSProxy], p.Spec.TCPProxy.isSome = true) ∧
    HTTPProxiesToGatewayResources (some contourGateway) [skippedTLSProxy] =
      some { gateway := some contourGateway, httpRoutes := [], tlsRoutes := [], err := none } ∧
    ([] : List TLSRoute).length ≠ [skippedTLSProxy].length := by
  refine ⟨⟨_, rfl, fun _ => rfl⟩, by decide, by decide, by decide⟩

/-- C1, as amended. With a base gateway supplied and every proxy having a virtual
host (and a TLS secret when it declares a TCP passthrough), the function returns
with a nil error; the HTTPRoutes are, in input order, one per proxy with no
includes and no passthrough, the TLSRoutes are, in input order, one per proxy with
no includes and a passthrough, each carrying the name and namespace of its proxy,
so every proxy with no includes gives exactly one route. A sequence with no
includes and no passthrough gives one HTTPRoute per proxy and no TLSRoute; a
sequence with no includes where every proxy has a passthrough gives one TLSRoute
per proxy and no HTTPRoute. -/
theorem C1_routes_one_per_unskipped_proxy (gw : Gateway) (proxies : List HTTPProxy)
    (h : ∀ p ∈ proxies, hasVirtualHost p) :
    ∃ out, HTTPProxiesToGatewayResources (some gw) proxies = some out ∧ out.err = none ∧
      out.httpRoutes.map HTTPRoute.key = (proxies.filter isHTTPSource).map HTTPProxy.key ∧
      out.tlsRoutes.map TLSRoute.key = (proxies.filter isTLSSource).map HTTPProxy.key ∧
      out.httpRoutes.length + out.tlsRoutes.length =
        (proxies.filter (fun p => decide (p.Spec.Includes = []))).length ∧
      ((∀ p ∈ proxies, p.Spec.Includes = [] ∧ p.Spec.TCPProxy = none) →
        out.httpRoutes.length = proxies.length ∧ out.tlsRoutes = []) ∧
      ((∀ p ∈ proxies, p.Spec.Includes = [] ∧ p.Spec.TCPProxy.isSome = true) →
        out.tlsRoutes.length = proxies.length ∧ out.httpRoutes = []) := by
  obtain ⟨ls, hout⟩ := convert_ok gw proxies h
  have hk1 := httpRouteOf_keys (commonRouteSpecFromGateway (some gw)) (proxies.filter isHTTPSource)
  have hk2 := tlsRouteFor_keys (commonRouteSpecFromGateway (some gw)) proxies
  have hl1 := congrArg List.length hk1
  have hl2 := congrArg List.length hk2
  simp only [List.length_map] at hl1 hl2
  refine ⟨_, hout, rfl, hk1, hk2, ?_, ?_, ?_⟩
  · simp only [hl2, List.length_map]
    exact filter_sources_length proxies
  · intro hall
    have hf : proxies.filter isHTTPSource = proxies :=
      List.filter_eq_self.mpr (fun p hp => by simp [isHTTPSource, hall p hp])
    have ht : proxies.filter isTLSSource = [] :=
      List.filter_eq_nil_iff.mpr (fun p hp => by simp [isTLSSource, hall p hp])
    constructor
    · simp [hf]
    · apply List.eq_nil_of_length_eq_zero
      simp only [hl2, ht, List.length_nil]
  · intro hall
    have hf : proxies.filter isTLSSource = proxies :=
      List.filter_eq_self.mpr (fun p hp => by simp [isTLSSource, hall p hp])
    have ht : proxies.filter isHTTPSource = [] :=
      List.filter_eq_nil_iff.mpr (fun p hp => by
        have := (hall p hp).2
        simp [isHTTPSource, Option.isSome_iff_ne_none.mp this])
    constructor
    · simp only [hl2, hf]
    · simp [ht]

/-- C1, witness: the proxies of scenarios A and B over the scenario B gateway. -/
theorem C1_routes_one_per_unskipped_proxy_witness :
    (∀ p ∈ [echoProxy, tlsProxy], hasVirtualHost p) ∧
    ∃ out, HTTPProxiesToGatewayResources (some contourGateway) [echoProxy, tlsProxy] = some out ∧
      out.err = none ∧
      out.httpRoutes.map HTTPRoute.key = ([echoProxy, tlsProxy].filter isHTTPSource).map HTTPProxy.key ∧
      out.tlsRoutes.map TLSRoute.key = ([echoProxy, tlsProxy].filter isTLSSource).map HTTPProxy.key ∧
      out.httpRoutes.length + out.tlsRoutes.length =
        ([echoProxy, tlsProxy].filter (fun p => decide (p.Spec.Includes = []))).length ∧
      ((∀ p ∈ [echoProxy, tlsProxy], p.Spec.Includes = [] ∧ p.Spec.TCPProxy = none) →
        out.httpRoutes.length = [echoProxy, tlsProxy].length ∧ out.tlsRoutes = []) ∧
      ((∀ p ∈ [echoProxy, tlsProxy], p.Spec.Includes = [] ∧ p.Spec.TCPProxy.isSome = true) →
        out.tlsRoutes.length = [echoProxy, tlsProxy].length ∧ out.httpRoutes = []) :=
  have hv : ∀ p ∈ [echoProxy, tlsProxy], hasVirtualHost p := by
    intro p hp
    simp only [List.mem_cons, List.mem_singleton, List.not_mem_nil, or_false] at hp
    rcases hp with rfl | rfl
    · exact ⟨_, rfl, fun h => absurd h (by decide)⟩
    · exact ⟨_, rfl, fun _ => rfl⟩
  ⟨hv, C1_routes_one_per_unskipped_proxy contourGateway [echoProxy, tlsProxy] hv⟩

/-- C2. With no base gateway the function ends in a nil-pointer dereference exactly
when some proxy has an empty includes list; when every proxy has a non-empty
includes list (in particular for the empty sequence) it returns a nil gateway, no
HTTPRoutes, no TLSRoutes and a nil error; and whenever it returns, the gateway is
nil: none is synthesized. -/
theorem C2_no_base_gateway (proxies : List HTTPProxy) :
    (HTTPProxiesToGatewayResources none proxies = none ↔
      ∃ p ∈ proxies, p.Spec.Includes = []) ∧
    ((∀ p ∈ proxies, p.Spec.Includes ≠ []) →
      HTTPProxiesToGatewayResources none proxies =
        some { gateway := none, httpRoutes := [], tlsRoutes := [], err := none }) ∧
    (∀ out, HTTPProxiesToGatewayResources none proxies = some out → out.gateway = none) := by
  obtain ⟨hskip, hfail⟩ := rangeProxies_nil_gateway (commonRouteSpecFromGateway none) proxies
    { outGateway := none, httpRoutes := [], tlsRoutes := [] } rfl
  have hret : (∀ p ∈ proxies, p.Spec.Includes ≠ []) →
      HTTPProxiesToGatewayResources none proxies =
        some { gateway := none, httpRoutes := [], tlsRoutes := [], err := none } := by
    intro hall
    rw [convert_eq, hskip hall]
    rfl
  have hpanic : (∃ p ∈ proxies, p.Spec.Includes = []) →
      HTTPProxiesToGatewayResources none proxies = none := by
    intro hex
    rw [convert_eq, hfail hex]
    rfl
  refine ⟨⟨?_, hpanic⟩, hret, ?_⟩
  · intro hnone
    by_contra hno
    have hall : ∀ p ∈ proxies, p.Spec.Includes ≠ [] := fun p hp hi => hno ⟨p, hp, hi⟩
    rw [hret hall] at hnone
    exact Option.noConfusion hnone
  · intro out hout
    by_cases hex : ∃ p ∈ proxies, p.Spec.Includes = []
    · rw [hpanic hex] at hout
      exact Option.noConfusion hout
    · have hall : ∀ p ∈ proxies, p.Spec.Includes ≠ [] := fun p hp hi => hex ⟨p, hp, hi⟩
      rw [hret hall] at hout
      cases hout
      rfl

/-- C2, witness: a sequence whose only proxy declares an include is returned
empty-handed, and scenario A's proxy, which declares none, ends the run. -/
theorem C2_no_base_gateway_witness :
    HTTPProxiesToGatewayResources none [skippedTLSProxy] =
      some { gateway := none, httpRoutes := [], tlsRoutes := [], err := none } ∧
    HTTPProxiesToGatewayResources none [skippedTLSProxy, echoProxy] = none :=
  ⟨(C2_no_base_gateway [skippedTLSProxy]).2.1 (by decide),
   (C2_no_base_gateway [skippedTLSProxy, echoProxy]).1.mpr ⟨echoProxy, by decide, rfl⟩⟩

/-- C3, the code at the input of scenario A. The loop builds the HTTPRoute the
scenario describes (named echo/default, no parent reference, one rule with the
single PathPrefix match on "/" and the single backend echo-svc:80), and then
dereferences the absent output gateway at `outGateway.Spec.Listeners`: the
function returns nothing. -/
theorem C3_scenarioA_nil_dereference :
    httpRouteOf (commonRouteSpecFromGateway none) echoProxy =
      { TypeMeta := { Kind := "HTTPRoute", APIVersion := "gateway.networking.k8s.io/v1alpha2" }
        ObjectMeta := { Name := "echo", Namespace := "default" }
        Spec :=
          { CommonRouteSpec := { ParentRefs := [] }
            Hostnames := []
            Rules :=
              [{ Matches := [{ Path := some { Type_ := some "PathPrefix", Value := some "/" }
                               Headers := [], QueryParams := [], Method := none }]
                 Filters := []
                 BackendRefs :=
                   [{ BackendRef := { Group := none, Kind := none, Name := "echo-svc",
                                      Namespace := none, Port := some 80, Weight := none }
                      Filters := [] }] }] } } ∧
    HTTPProxiesToGatewayResources none [echoProxy] = none := by
  constructor <;> decide

/-- C4. `addListener ls l` returns `ls` itself exactly when some listener of `ls`
has the protocol and the port of `l` and a matching hostname (both absent, or both
present and equal); otherwise it returns `ls` with one listener appended, equal to
`l` except for its name. The decision is the same for any new listener with the
same protocol, port and hostname, whatever its name and TLS configuration, and for
any existing sequence with the same protocols, ports and hostnames. -/
theorem C4_addListener_dedup (ls : List Listener) (l : Listener) :
    (addListener ls l = ls ↔
      ∃ e ∈ ls, e.Protocol = l.Protocol ∧ e.Port = l.Port ∧
        ((e.Hostname = none ∧ l.Hostname = none) ∨
          ∃ a b, e.Hostname = some a ∧ l.Hostname = some b ∧ a = b)) ∧
    (addListener ls l = ls ∨
      ∃ name, addListener ls l = ls ++ [{ l with Name := name }]) ∧
    (∀ name tls, addListener ls { l with Name := name, TLS := tls } = ls ↔
      addListener ls l = ls) ∧
    (∀ ls2 : List Listener,
      ls2.map (fun e => (e.Protocol, e.Port, e.Hostname)) =
        ls.map (fun e => (e.Protocol, e.Port, e.Hostname)) →
      (addListener ls2 l = ls2 ↔ addListener ls l = ls)) := by
  refine ⟨?_, ?_, ?_, ?_⟩
  · rw [addListener_eq_self_iff]
    constructor
    · rintro ⟨e, he, hp, hq, hh⟩
      refine ⟨e, he, hp, hq, ?_⟩
      cases hl : l.Hostname with
      | none => exact Or.inl ⟨by rw [hh, hl], rfl⟩
      | some b => exact Or.inr ⟨b, b, by rw [hh, hl], rfl, rfl⟩
    · rintro ⟨e, he, hp, hq, hh⟩
      refine ⟨e, he, hp, hq, ?_⟩
      rcases hh with ⟨h1, h2⟩ | ⟨a, b, h1, h2, hab⟩
      · rw [h1, h2]
      · rw [h1, h2, hab]
  · by_cases hm : ∃ e ∈ ls, sameTriple e l
    · exact Or.inl (addListener_of_match ls l hm)
    · exact Or.inr ⟨_, addListener_of_no_match ls l hm⟩
  · intro name tls
    rw [addListener_eq_self_iff, addListener_eq_self_iff]
    rfl
  · intro ls2 hmap
    rw [addListener_eq_self_iff, addListener_eq_self_iff]
    have key : ∀ xs : List Listener, (∃ e ∈ xs, sameTriple e l) ↔
        (l.Protocol, l.Port, l.Hostname) ∈ xs.map (fun e => (e.Protocol, e.Port, e.Hostname)) := by
      intro xs
      simp only [List.mem_map, Prod.mk.injEq, sameTriple]
    rw [key, key, hmap]

/-- C4, witness: a second registration of an HTTP listener for the same host
returns the sequence itself, also under another name and with a TLS block. -/
theorem C4_addListener_dedup_witness :
    addListener (addListener [] (httpListener [] "echo.example.com"))
        { httpListener [] "echo.example.com" with Name := "other", TLS := some emptyTLSConfig } =
      addListener [] (httpListener [] "echo.example.com") :=
  ((C4_addListener_dedup (addListener [] (httpListener [] "echo.example.com"))
      (httpListener [] "echo.example.com")).2.2.1 "other" (some emptyTLSConfig)).mpr
    ((C4_addListener_dedup (addListener [] (httpListener [] "echo.example.com"))
      (httpListener [] "echo.example.com")).1.mpr
      ⟨{ httpListener [] "echo.example.com" with Name := "http-0" }, by decide, rfl, rfl,
        Or.inr ⟨_, _, rfl, rfl, rfl⟩⟩)

/-- C5, counterexample. A base gateway that lists the same (HTTP, 80, no hostname)
listener twice is returned with both entries when there is no proxy to process:
positions 0 and 1 of the returned gateway share their triple. -/
theorem C5_counterexample_duplicates_in_base :
    HTTPProxiesToGatewayResources (some duplicateListenerGateway) [] =
      some { gateway := some duplicateListenerGateway, httpRoutes := [], tlsRoutes := [],
             err := none } ∧
    ¬ distinctTriples duplicateListenerGateway.Spec.Listeners := by
  refine ⟨by decide, ?_⟩
  intro h
  exact h 0 1 (by decide) (by decide) (by decide) ⟨rfl, rfl, rfl⟩

/-- C5, as amended. When the listeners of the base gateway are pairwise distinct on
(protocol, port, hostname), then on every proxy sequence on which the function
returns a gateway, no two listeners at different positions of the returned gateway
share the triple. -/
theorem C5_listeners_distinct (base : Option Gateway) (proxies : List HTTPProxy)
    (out : Output) (g : Gateway)
    (hbase : ∀ g0, base = some g0 → distinctTriples g0.Spec.Listeners)
    (h : HTTPProxiesToGatewayResources base proxies = some out)
    (hg : out.gateway = some g) :
    distinctTriples g.Spec.Listeners := by
  obtain ⟨g0, hb, _, hp⟩ := convert_listeners distinctTriples addListener_distinctTriples
    base proxies out g h hg
  exact hp (hbase g0 hb)

/-- C5, witness: scenario A's proxy twice and scenario B's proxy over the
scenario B gateway give two listeners, with distinct triples. -/
theorem C5_listeners_distinct_witness :
    ∃ out g, HTTPProxiesToGatewayResources (some contourGateway)
        [echoProxy, echoProxy, tlsProxy] = some out ∧ out.gateway = some g ∧
      g.Spec.Listeners.length = 2 ∧ distinctTriples g.Spec.Listeners :=
  ⟨_, _, rfl, rfl, by decide,
    C5_listeners_distinct (some contourGateway) [echoProxy, echoProxy, tlsProxy] _ _
      (fun g0 h0 => by
        cases h0
        intro i j hi
        exact absurd hi (Nat.not_lt_zero i))
      rfl rfl⟩

/-- C6. With a base gateway supplied, whenever the function returns, its HTTPRoutes
pair off, in order, with the proxies that have no includes and no TCP passthrough;
the route of a proxy carries its name and namespace and has one rule per route rule
of the proxy, in order (none for a proxy with no route rule); each rule has exactly
one match entry, no filters, and as backend references the services of its source
rule mapped in order to name and port, with no weight and no filters. The port is
the service port converted to the 32-bit `PortNumber` (`portNumPtr`), which is the
service port itself whenever that lies in the int32 range. The function does
return when every proxy has a virtual host. -/
theorem C6_http_route_rules (gw : Gateway) (proxies : List HTTPProxy) :
    (∀ out, HTTPProxiesToGatewayResources (some gw) proxies = some out →
      List.Forall₂
        (fun p r =>
          r.ObjectMeta = { Name := p.Name, Namespace := p.Namespace } ∧
          r.Spec.Rules.length = p.Spec.Routes.length ∧
          (p.Spec.Routes = [] → r.Spec.Rules = []) ∧
          List.Forall₂
            (fun src rule =>
              rule.Matches.length = 1 ∧ rule.Filters = [] ∧
              rule.BackendRefs = src.Services.map (fun s =>
                { BackendRef := { Group := none, Kind := none, Name := s.Name, Namespace := none,
                                  Port := portNumPtr s.Port, Weight := none }
                  Filters := [] }))
            p.Spec.Routes r.Spec.Rules)
        (proxies.filter isHTTPSource) out.httpRoutes) ∧
    ((∀ p ∈ proxies, hasVirtualHost p) →
      ∃ out, HTTPProxiesToGatewayResources (some gw) proxies = some out) ∧
    (∀ port : Int, -2147483648 ≤ port → port < 2147483648 → portNumPtr port = some port) := by
  refine ⟨?_, ?_, portNumPtr_of_int32⟩
  · intro out hout
    rw [(convert_routes (some gw) proxies out hout).1, List.forall₂_map_right_iff,
      List.forall₂_same]
    intro p _
    have hrules := httpRules_forall₂ p.Spec.Routes
    refine ⟨rfl, hrules.length_eq.symm, ?_, hrules⟩
    intro hnil
    simp [httpRouteOf, httpRules, hnil]
  · intro hall
    obtain ⟨ls, hls⟩ := convert_ok gw proxies hall
    exact ⟨_, hls⟩

/-- C6, witness: scenario A's proxy over the scenario B gateway. -/
theorem C6_http_route_rules_witness :
    ∃ out, HTTPProxiesToGatewayResources (some contourGateway) [echoProxy] = some out ∧
      List.Forall₂
        (fun p r =>
          r.ObjectMeta = { Name := p.Name, Namespace := p.Namespace } ∧
          r.Spec.Rules.length = p.Spec.Routes.length ∧
          (p.Spec.Routes = [] → r.Spec.Rules = []) ∧
          List.Forall₂
            (fun src rule =>
              rule.Matches.length = 1 ∧ rule.Filters = [] ∧
              rule.BackendRefs = src.Services.map (fun s =>
                { BackendRef := { Group := none, Kind := none, Name := s.Name, Namespace := none,
                                  Port := portNumPtr s.Port, Weight := none }
                  Filters := [] }))
            p.Spec.Routes r.Spec.Rules)
        ([echoProxy].filter isHTTPSource) out.httpRoutes :=
  ⟨_, rfl, (C6_http_route_rules contourGateway [echoProxy]).1 _ rfl⟩

/-- C7. The path match built for a route rule depends only on the prefixes of its
conditions: when some condition has a non-empty prefix, the match is a PathPrefix
match on the prefix of the last such condition; when none has, the match has no
path; conditions with an empty prefix never change the match, nor does anything
but the prefix of the others; and the match is the single match entry of the rule
built for the route. -/
theorem C7_path_match_last_wins (conditions : List MatchCondition) :
    (∀ pre post c, conditions = pre ++ c :: post → c.Prefix ≠ "" →
      (∀ d ∈ post, d.Prefix = "") →
      (routeMatch conditions).Path =
        some { Type_ := some "PathPrefix", Value := some c.Prefix }) ∧
    ((∀ c ∈ conditions, c.Prefix = "") → (routeMatch conditions).Path = none) ∧
    routeMatch (conditions.filter (fun c => decide (c.Prefix ≠ ""))) = routeMatch conditions ∧
    (∀ conditions2 : List MatchCondition,
      conditions2.map (fun c => c.Prefix) = conditions.map (fun c => c.Prefix) →
      routeMatch conditions2 = routeMatch conditions) ∧
    (∀ services, (httpRules [{ Conditions := conditions, Services := services }]).map
      (fun rule => rule.Matches) = [[routeMatch conditions]]) := by
  refine ⟨?_, ?_, ?_, ?_, ?_⟩
  · intro pre post c hc hne hpost
    rw [routeMatch_eq, hc]
    exact lastPrefixPath_of_last pre post c hne hpost
  · intro hall
    rw [routeMatch_eq]
    exact lastPrefixPath_of_none conditions hall
  · rw [routeMatch_eq, routeMatch_eq]
    simp [lastPrefixPath, List.filter_filter]
  · intro conditions2 h
    rw [routeMatch_eq, routeMatch_eq, lastPrefixPath_congr conditions2 conditions h]
  · intro services
    rfl

/-- C7, witness: of two prefixes the later one wins, and a header condition after
it changes nothing. -/
theorem C7_path_match_last_wins_witness :
    (routeMatch [{ Prefix := "/a", Header := none }, { Prefix := "/b", Header := none },
        { Prefix := "", Header := some { Name := "x", Present := true, Contains := "",
                                         Exact := "" } }]).Path =
      some { Type_ := some "PathPrefix", Value := some "/b" } :=
  (C7_path_match_last_wins _).1 [{ Prefix := "/a", Header := none }]
    [{ Prefix := "", Header := some { Name := "x", Present := true, Contains := "",
                                      Exact := "" } }]
    { Prefix := "/b", Header := none } rfl (by decide) (by decide)

/-- C8. With a base gateway supplied, whenever the function returns, its TLSRoutes
pair off, in order, with the proxies that have no includes and a TCP passthrough;
the route of a proxy carries its name and namespace and has exactly one rule, whose
backend references are the services of the passthrough mapped in order to name and
port, with no weight; for an empty service list that is one rule with no backend
reference. The port is the service port converted to the 32-bit `PortNumber`
(`portNumPtr`), which is the service port itself whenever that lies in the int32
range. The function does return when every proxy has a virtual host (and a TLS
block when it declares a passthrough). -/
theorem C8_tls_route_rule (gw : Gateway) (proxies : List HTTPProxy) :
    (∀ out, HTTPProxiesToGatewayResources (some gw) proxies = some out →
      List.Forall₂
        (fun p r =>
          r.ObjectMeta = { Name := p.Name, Namespace := p.Namespace } ∧
          ∃ tcp, p.Spec.TCPProxy = some tcp ∧
            r.Spec.Rules = [{ BackendRefs := tcp.Services.map (fun s =>
              { Group := none, Kind := none, Name := s.Name, Namespace := none,
                Port := portNumPtr s.Port, Weight := none }) }] ∧
            (tcp.Services = [] → r.Spec.Rules = [{ BackendRefs := [] }]))
        (proxies.filter isTLSSource) out.tlsRoutes) ∧
    ((∀ p ∈ proxies, hasVirtualHost p) →
      ∃ out, HTTPProxiesToGatewayResources (some gw) proxies = some out) ∧
    (∀ port : Int, -2147483648 ≤ port → port < 2147483648 → portNumPtr port = some port) := by
  refine ⟨?_, ?_, portNumPtr_of_int32⟩
  · intro out hout
    rw [(convert_routes (some gw) proxies out hout).2.1]
    apply tlsRouteFor_forall₂
    intro p tcp _ ht
    refine ⟨rfl, tcp, ht, ?_, ?_⟩
    · simp only [tlsRouteOf, tcpBackendRefs_eq_map]
      rfl
    · intro hnil
      simp [tlsRouteOf, tcpBackendRefs, hnil]
  · intro hall
    obtain ⟨ls, hls⟩ := convert_ok gw proxies hall
    exact ⟨_, hls⟩

/-- C8, witness: scenario B. -/
theorem C8_tls_route_rule_witness :
    ∃ out, HTTPProxiesToGatewayResources (some contourGateway) [tlsProxy] = some out ∧
      List.Forall₂
        (fun p r =>
          r.ObjectMeta = { Name := p.Name, Namespace := p.Namespace } ∧
          ∃ tcp, p.Spec.TCPProxy = some tcp ∧
            r.Spec.Rules = [{ BackendRefs := tcp.Services.map (fun s =>
              { Group := none, Kind := none, Name := s.Name, Namespace := none,
                Port := portNumPtr s.Port, Weight := none }) }] ∧
            (tcp.Services = [] → r.Spec.Rules = [{ BackendRefs := [] }]))
        ([tlsProxy].filter isTLSSource) out.tlsRoutes :=
  ⟨_, rfl, (C8_tls_route_rule contourGateway [tlsProxy]).1 _ rfl⟩

/-- C9, counterexample. The base gateway has one listener, which is not a TLS
listener on port 443, and the single proxy has a TCP passthrough, the FQDN
tls.example.com and the TLS secret tls-secret; it also declares an include, so the
loop skips it: the gateway keeps its one listener instead of gaining a second, and
no TLSRoute is returned. -/
theorem C9_counterexample_skipped_passthrough :
    (∀ e ∈ plainHTTPGateway.Spec.Listeners,
      ¬ (e.Protocol = "TLS" ∧ e.Port = 443 ∧ e.Hostname = some "tls.example.com")) ∧
    skippedTLSProxy.Spec.TCPProxy = some { Services := [{ Name := "tcp-svc", Port := 443 }] } ∧
    skippedTLSProxy.Spec.VirtualHost =
      some { Fqdn := "tls.example.com", TLS := some { SecretName := "tls-secret" } } ∧
    HTTPProxiesToGatewayResources (some plainHTTPGateway) [skippedTLSProxy] =
      some { gateway := some plainHTTPGateway, httpRoutes := [], tlsRoutes := [], err := none } ∧
    plainHTTPGateway.Spec.Listeners.length ≠ 1 + 1 := by
  refine ⟨by decide, rfl, rfl, by decide, by decide⟩

/-- C9, as amended. For every base gateway none of whose listeners is a TLS
listener on port 443 with hostname `h`, processing a single proxy with an empty
includes list, a TCP passthrough, virtual-host FQDN `h` and TLS secret name `s`
returns the gateway with one more listener, the last one, which has protocol TLS,
port 443, hostname `h`, TLS mode Terminate and the single certificate reference
`s`; and it returns one TLSRoute, whose single parent reference names the base
gateway. On the input of scenario B the gateway has exactly that one listener. -/
theorem C9_tls_listener_appended (gw : Gateway) (p : HTTPProxy) (tcp : TCPProxy)
    (h s : String) (hi : p.Spec.Includes = []) (ht : p.Spec.TCPProxy = some tcp)
    (hv : p.Spec.VirtualHost = some { Fqdn := h, TLS := some { SecretName := s } })
    (hnew : ∀ e ∈ gw.Spec.Listeners,
      ¬ (e.Protocol = "TLS" ∧ e.Port = 443 ∧ e.Hostname = some h)) :
    (∃ out g last r pr,
      HTTPProxiesToGatewayResources (some gw) [p] = some out ∧ out.err = none ∧
      out.gateway = some g ∧
      g.Spec.Listeners = gw.Spec.Listeners ++ [last] ∧
      g.Spec.Listeners.length = gw.Spec.Listeners.length + 1 ∧
      last.Protocol = "TLS" ∧ last.Port = 443 ∧ last.Hostname = some h ∧
      last.TLS = some
        { Mode := some "Terminate"
          CertificateRefs := [{ Group := none, Kind := none, Name := s, Namespace := none }]
          Options := [] } ∧
      out.httpRoutes = [] ∧ out.tlsRoutes = [r] ∧
      r.ObjectMeta = { Name := p.Name, Namespace := p.Namespace } ∧
      r.Spec.CommonRouteSpec.ParentRefs = [pr] ∧ pr.Name = gw.Name ∧
      pr.Group = some "gateway.networking.k8s.io" ∧ pr.Kind = some "Gateway") ∧
    HTTPProxiesToGatewayResources (some contourGateway) [tlsProxy] =
      some
        { gateway := some (contourGateway.setListeners
            [{ Name := "tls-0", Hostname := some "tls.example.com", Port := 443,
               Protocol := "TLS"
               TLS := some
                 { Mode := some "Terminate"
                   CertificateRefs :=
                     [{ Group := none, Kind := none, Name := "tls-secret", Namespace := none }]
                   Options := [] }
               AllowedRoutes := none }])
          httpRoutes := []
          tlsRoutes :=
            [{ TypeMeta := { Kind := "TLSRoute", APIVersion := "gateway.networking.k8s.io/v1alpha2" }
               ObjectMeta := { Name := "tls", Namespace := "default" }
               Spec :=
                 { CommonRouteSpec :=
                     { ParentRefs :=
                         [{ Group := some "gateway.networking.k8s.io", Kind := some "Gateway",
                            Namespace := some "projectcontour", Name := "contour",
                            SectionName := none }] }
                   Hostnames := []
                   Rules := [{ BackendRefs :=
                     [{ Group := none, Kind := none, Name := "tcp-svc", Namespace := none,
                        Port := some 443, Weight := none }] }] } }]
          err := none } := by
  refine ⟨?_, by decide⟩
  have hm : ¬ ∃ e ∈ gw.Spec.Listeners, sameTriple e (tlsListener gw.Spec.Listeners h s) := by
    rintro ⟨e, he, hs⟩
    exact hnew e he hs
  obtain ⟨pr, hpr, hname, hgroup, hkind, _, _⟩ := commonRouteSpecFromGateway_some gw
  have hrun : HTTPProxiesToGatewayResources (some gw) [p] = some
      { gateway := some (gw.setListeners (gw.Spec.Listeners ++
          [{ tlsListener gw.Spec.Listeners h s with
             Name := listenerName TLSProtocolType gw.Spec.Listeners.length }]))
        httpRoutes := []
        tlsRoutes := [tlsRouteOf (commonRouteSpecFromGateway (some gw)) p tcp]
        err := none } := by
    rw [convert_singleton, processProxy_tls _ _ p gw tcp _ { SecretName := s } rfl hi ht hv rfl,
      addListener_of_no_match _ _ hm]
    rfl
  exact ⟨_, _, _, _, pr, hrun, rfl, rfl, rfl, by simp [Gateway.setListeners], rfl, rfl, rfl, rfl,
    rfl, rfl, rfl, hpr, hname, hgroup, hkind⟩

/-- C9, witness: scenario B over a gateway that already has an HTTP listener. -/
theorem C9_tls_listener_appended_witness :
    ∃ out g last, HTTPProxiesToGatewayResources (some plainHTTPGateway) [tlsProxy] = some out ∧
      out.gateway = some g ∧
      g.Spec.Listeners = plainHTTPGateway.Spec.Listeners ++ [last] ∧
      last.Protocol = "TLS" ∧ last.Port = 443 ∧ last.Hostname = some "tls.example.com" :=
  match (C9_tls_listener_appended plainHTTPGateway tlsProxy
      { Services := [{ Name := "tcp-svc", Port := 443 }] } "tls.example.com" "tls-secret"
      rfl rfl rfl (by decide)).1 with
  | ⟨out, g, last, _, _, h1, _, h2, h3, _, h4, h5, h6, _⟩ =>
    ⟨out, g, last, h1, h2, h3, h4, h5, h6⟩

/-- C10, counterexample. The base gateway has one listener, on HTTP port 80 with no
hostname; the proxy has no includes, no passthrough and the empty FQDN. The
listener registered for it has the hostname "" (present, empty), which is not a
match for the absent hostname, and it is appended as `http-1`. -/
theorem C10_counterexample_empty_fqdn_appended :
    emptyFqdnProxy.Spec.Includes = [] ∧
    emptyFqdnProxy.Spec.VirtualHost = some { Fqdn := "", TLS := none } ∧
    (HTTPProxiesToGatewayResources (some plainHTTPGateway) [emptyFqdnProxy]).map
        (fun out => out.gateway.map (fun g => g.Spec.Listeners)) =
      some (some
        [{ Name := "web", Hostname := none, Port := 80, Protocol := "HTTP", TLS := none,
           AllowedRoutes := none },
         { Name := "http-1", Hostname := some "", Port := 80, Protocol := "HTTP", TLS := none,
           AllowedRoutes := none }]) := by
  refine ⟨rfl, rfl, by decide⟩

/-- C10, as amended. For every proxy with no includes whose virtual-host FQDN is the
empty string, the listener registered for it has a hostname that is present and
empty: the returned gateway keeps the listeners of the base gateway exactly when
one of them has the same protocol and port and a present, empty hostname (an
absent hostname is no match), and otherwise gains one listener, the last one,
whose hostname is present and empty. -/
theorem C10_empty_fqdn_listener (gw : Gateway) (p : HTTPProxy) (vh : VirtualHost)
    (hi : p.Spec.Includes = []) (hv : p.Spec.VirtualHost = some vh) (hf : vh.Fqdn = "")
    (htls : p.Spec.TCPProxy.isSome = true → vh.TLS.isSome = true) :
    ∃ out g, HTTPProxiesToGatewayResources (some gw) [p] = some out ∧ out.gateway = some g ∧
      (g.Spec.Listeners = gw.Spec.Listeners ↔
        ∃ e ∈ gw.Spec.Listeners,
          e.Protocol = (if p.Spec.TCPProxy.isSome then "TLS" else "HTTP") ∧
          e.Port = (if p.Spec.TCPProxy.isSome then 443 else 80) ∧
          e.Hostname = some "") ∧
      (g.Spec.Listeners = gw.Spec.Listeners ∨
        ∃ last, g.Spec.Listeners = gw.Spec.Listeners ++ [last] ∧ last.Hostname = some "" ∧
          last.Protocol = (if p.Spec.TCPProxy.isSome then "TLS" else "HTTP") ∧
          last.Port = (if p.Spec.TCPProxy.isSome then 443 else 80)) := by
  cases ht : p.Spec.TCPProxy with
  | none =>
    have hrun : HTTPProxiesToGatewayResources (some gw) [p] = some
        { gateway := some (gw.setListeners
            (addListener gw.Spec.Listeners (httpListener gw.Spec.Listeners "")))
          httpRoutes := [httpRouteOf (commonRouteSpecFromGateway (some gw)) p]
          tlsRoutes := []
          err := none } := by
      rw [convert_singleton, processProxy_http _ _ p gw vh rfl hi ht hv, hf]
      rfl
    refine ⟨_, _, hrun, rfl, ?_, ?_⟩
    · exact addListener_eq_self_iff _ _
    · by_cases hm : ∃ e ∈ gw.Spec.Listeners, sameTriple e (httpListener gw.Spec.Listeners "")
      · exact Or.inl (addListener_of_match _ _ hm)
      · exact Or.inr ⟨_, addListener_of_no_match _ _ hm, rfl, rfl, rfl⟩
  | some tcp =>
    obtain ⟨tls, hs⟩ := Option.isSome_iff_exists.mp (htls (by simp [ht]))
    have hrun : HTTPProxiesToGatewayResources (some gw) [p] = some
        { gateway := some (gw.setListeners
            (addListener gw.Spec.Listeners (tlsListener gw.Spec.Listeners "" tls.SecretName)))
          httpRoutes := []
          tlsRoutes := [tlsRouteOf (commonRouteSpecFromGateway (some gw)) p tcp]
          err := none } := by
      rw [convert_singleton, processProxy_tls _ _ p gw tcp vh tls rfl hi ht hv hs, hf]
      rfl
    refine ⟨_, _, hrun, rfl, ?_, ?_⟩
    · exact addListener_eq_self_iff _ _
    · by_cases hm : ∃ e ∈ gw.Spec.Listeners,
          sameTriple e (tlsListener gw.Spec.Listeners "" tls.SecretName)
      · exact Or.inl (addListener_of_match _ _ hm)
      · exact Or.inr ⟨_, addListener_of_no_match _ _ hm, rfl, rfl, rfl⟩

/-- C10, witness: the empty-FQDN proxy over the gateway whose listener has no
hostname; the listeners do not stay as they were. -/
theorem C10_empty_fqdn_listener_witness :
    ∃ out g, HTTPProxiesToGatewayResources (some plainHTTPGateway) [emptyFqdnProxy] = some out ∧
      out.gateway = some g ∧ g.Spec.Listeners ≠ plainHTTPGateway.Spec.Listeners :=
  match C10_empty_fqdn_listener plainHTTPGateway emptyFqdnProxy { Fqdn := "", TLS := none }
      rfl rfl rfl (fun h => absurd h (by decide)) with
  | ⟨out, g, h1, h2, h3, _⟩ =>
    ⟨out, g, h1, h2, fun heq => by
      obtain ⟨e, he, _, _, hh⟩ := h3.mp heq
      simp only [plainHTTPGateway, List.mem_singleton] at he
      subst he
      exact Option.noConfusion hh⟩

/-- C11, counterexample. The base gateway has the empty namespace; the route
returned for scenario A's proxy has one parent reference, whose namespace is
absent, not the (empty) namespace of the base gateway. -/
theorem C11_counterexample_empty_namespace :
    clusterGateway.Namespace = "" ∧
    (HTTPProxiesToGatewayResources (some clusterGateway) [echoProxy]).map
        (fun out => out.httpRoutes.map (fun r => r.Spec.CommonRouteSpec.ParentRefs)) =
      some [[{ Group := some "gateway.networking.k8s.io", Kind := some "Gateway",
               Namespace := none, Name := "contour", SectionName := none }]] ∧
    (none : Option String) ≠ some clusterGateway.Namespace := by
  refine ⟨rfl, by decide, by decide⟩

/-- C11, as amended. Every route the function returns, HTTPRoute or TLSRoute, has
exactly one parent reference when a base gateway is supplied and none otherwise;
when supplied, the reference has group gateway.networking.k8s.io, kind Gateway, the
name of the base gateway, and the namespace of the base gateway when that is not
empty and no namespace when it is empty; it is the same for every returned route. -/
theorem C11_parent_refs (base : Option Gateway) (proxies : List HTTPProxy) (out : Output)
    (h : HTTPProxiesToGatewayResources base proxies = some out) :
    (∀ gw, base = some gw →
      ∀ refs ∈ out.httpRoutes.map (fun r => r.Spec.CommonRouteSpec.ParentRefs) ++
          out.tlsRoutes.map (fun r => r.Spec.CommonRouteSpec.ParentRefs),
        refs = [{ Group := some "gateway.networking.k8s.io", Kind := some "Gateway",
                  Namespace := if gw.Namespace = "" then none else some gw.Namespace,
                  Name := gw.Name, SectionName := none }]) ∧
    (base = none →
      ∀ refs ∈ out.httpRoutes.map (fun r => r.Spec.CommonRouteSpec.ParentRefs) ++
          out.tlsRoutes.map (fun r => r.Spec.CommonRouteSpec.ParentRefs),
        refs = []) := by
  obtain ⟨h1, h2⟩ := convert_parentRefs base proxies out h
  have key : ∀ refs ∈ out.httpRoutes.map (fun r => r.Spec.CommonRouteSpec.ParentRefs) ++
      out.tlsRoutes.map (fun r => r.Spec.CommonRouteSpec.ParentRefs),
      refs = (commonRouteSpecFromGateway base).ParentRefs := by
    intro refs hrefs
    rcases List.mem_append.mp hrefs with hm | hm
    · obtain ⟨r, hr, rfl⟩ := List.mem_map.mp hm
      rw [h1 r hr]
    · obtain ⟨r, hr, rfl⟩ := List.mem_map.mp hm
      rw [h2 r hr]
  constructor
  · intro gw hgw refs hrefs
    rw [key refs hrefs, hgw, commonRouteSpecFromGateway_eq]
  · intro hnone refs hrefs
    rw [key refs hrefs, hnone]
    rfl

/-- C11, witness: scenarios A and B together; both routes refer to
contour/projectcontour. -/
theorem C11_parent_refs_witness :
    ∃ out, HTTPProxiesToGatewayResources (some contourGateway) [echoProxy, tlsProxy] = some out ∧
      out.httpRoutes.length = 1 ∧ out.tlsRoutes.length = 1 ∧
      ∀ refs ∈ out.httpRoutes.map (fun r => r.Spec.CommonRouteSpec.ParentRefs) ++
          out.tlsRoutes.map (fun r => r.Spec.CommonRouteSpec.ParentRefs),
        refs = [{ Group := some "gateway.networking.k8s.io", Kind := some "Gateway",
                  Namespace := some "projectcontour", Name := "contour", SectionName := none }] :=
  ⟨_, rfl, rfl, rfl,
    (C11_parent_refs (some contourGateway) [echoProxy, tlsProxy] _ rfl).1 contourGateway rfl⟩

/-- C12. A proxy with a non-empty includes list contributes nothing and stops
nothing: on every base gateway (supplied or not) and every proxy sequence the
function does exactly what it does on the sequence without the proxies that have a
non-empty includes list, returning the same gateway, HTTPRoutes, TLSRoutes and
error, or failing alike; so removing one such proxy, whatever else it declares,
changes nothing. -/
theorem C12_includes_skipped (base : Option Gateway) (proxies : List HTTPProxy) :
    HTTPProxiesToGatewayResources base proxies =
      HTTPProxiesToGatewayResources base
        (proxies.filter (fun p => decide (p.Spec.Includes = []))) ∧
    (∀ pre post p, p.Spec.Includes ≠ [] → proxies = pre ++ p :: post →
      HTTPProxiesToGatewayResources base proxies =
        HTTPProxiesToGatewayResources base (pre ++ post)) ∧
    (∀ out, HTTPProxiesToGatewayResources base proxies = some out → out.err = none) := by
  have hfilter : ∀ ps : List HTTPProxy, HTTPProxiesToGatewayResources base ps =
      HTTPProxiesToGatewayResources base (ps.filter (fun p => decide (p.Spec.Includes = []))) := by
    intro ps
    rw [convert_eq, convert_eq, rangeProxies_filter]
  refine ⟨hfilter proxies, ?_, ?_⟩
  · intro pre post p hp hsplit
    rw [hfilter proxies, hfilter (pre ++ post), hsplit]
    have hneg : decide (p.Spec.Includes = []) = false := decide_eq_false hp
    simp only [List.filter_append, List.filter_cons, hneg]
    rfl
  · intro out hout
    exact (convert_routes base proxies out hout).2.2

/-- C12, witness: a skipped proxy that declares a passthrough, between the proxies
of scenarios A and B. -/
theorem C12_includes_skipped_witness :
    HTTPProxiesToGatewayResources (some contourGateway) [echoProxy, skippedTLSProxy, tlsProxy] =
      HTTPProxiesToGatewayResources (some contourGateway) ([echoProxy] ++ [tlsProxy]) :=
  (C12_includes_skipped (some contourGateway) [echoProxy, skippedTLSProxy, tlsProxy]).2.1
    [echoProxy] [tlsProxy] skippedTLSProxy (by decide) rfl

/-- C13. Whenever `addListener ls l` appends a listener, it appends `l` under the
name `listenerName l.Protocol ls.length`, which is "http-", "https-" or "tls-"
followed by the decimal length of `ls` for the protocols HTTP, HTTPS and TLS; the
name `l` carried on entry is discarded; and for the listeners built in
`HTTPProxiesToGatewayResources` that name is the one the caller had computed. -/
theorem C13_listener_name (ls : List Listener) (l : Listener) :
    (addListener ls l ≠ ls →
      ∃ last, addListener ls l = ls ++ [last] ∧
        last = { l with Name := listenerName l.Protocol ls.length } ∧
        (l.Protocol = "HTTP" → last.Name = "http-" ++ toString ls.length) ∧
        (l.Protocol = "HTTPS" → last.Name = "https-" ++ toString ls.length) ∧
        (l.Protocol = "TLS" → last.Name = "tls-" ++ toString ls.length)) ∧
    (∀ name, addListener ls { l with Name := name } = addListener ls l) ∧
    (∀ fqdn, (httpListener ls fqdn).Name =
      listenerName (httpListener ls fqdn).Protocol ls.length) ∧
    (∀ fqdn secret, (tlsListener ls fqdn secret).Name =
      listenerName (tlsListener ls fqdn secret).Protocol ls.length) := by
  refine ⟨?_, fun name => addListener_name ls l name, fun _ => rfl, fun _ _ => rfl⟩
  intro hne
  have hm : ¬ ∃ e ∈ ls, sameTriple e l := fun hm => hne (addListener_of_match ls l hm)
  refine ⟨_, addListener_of_no_match ls l hm, rfl, ?_, ?_, ?_⟩
  · intro hp
    simp [hp, listenerName, HTTPProtocolType]
  · intro hp
    simp [hp, listenerName, HTTPProtocolType, HTTPSProtocolType]
  · intro hp
    simp [hp, listenerName, HTTPProtocolType, HTTPSProtocolType, TLSProtocolType]

/-- C13, witness: a TLS listener added to a gateway with one HTTP listener is
appended as tls-1, whatever name it came with. -/
theorem C13_listener_name_witness :
    ∃ last, addListener plainHTTPGateway.Spec.Listeners (tlsListener [] "tls.example.com" "s") =
        plainHTTPGateway.Spec.Listeners ++ [last] ∧
      last.Name = "tls-" ++ toString plainHTTPGateway.Spec.Listeners.length :=
  match (C13_listener_name plainHTTPGateway.Spec.Listeners
      (tlsListener [] "tls.example.com" "s")).1 (by decide) with
  | ⟨last, h1, _, _, _, h2⟩ => ⟨last, h1, h2 rfl⟩

/-- C14, counterexample. Over the scenario B gateway, which has no listener, the
proxy of scenario B and then the proxy of scenario A are processed: the first (and
only) HTTP listener appended is named http-1, not http-0, because the TLS listener
appended before it is counted. -/
theorem C14_counterexample_first_http_listener :
    contourGateway.Spec.Listeners = [] ∧
    (HTTPProxiesToGatewayResources (some contourGateway) [tlsProxy, echoProxy]).map
        (fun out => out.gateway.map (fun g =>
          g.Spec.Listeners.map (fun l => (l.Protocol, l.Name)))) =
      some (some [("TLS", "tls-0"), ("HTTP", "http-1")]) ∧
    "http-1" ≠ "http-0" := by
  refine ⟨rfl, by decide, by decide⟩

/-- C14, as amended. On every run that returns a gateway, the listeners of the base
gateway stay in front and every HTTP listener appended after them is named
"http-<i>", where i is its zero-based position in the returned listener sequence,
counting the inherited listeners and the appended listeners of every protocol. So
the N-th HTTP listener appended is named "http-<N-1>" when the base gateway has no
listener and no processed proxy declares a TCP passthrough (then every appended
listener is an HTTP listener). -/
theorem C14_http_listener_names (gw : Gateway) (proxies : List HTTPProxy) (out : Output)
    (g : Gateway) (h : HTTPProxiesToGatewayResources (some gw) proxies = some out)
    (hg : out.gateway = some g) :
    ∃ rest, g.Spec.Listeners = gw.Spec.Listeners ++ rest ∧
      (∀ (i : Nat) (hi : i < rest.length), rest[i].Protocol = "HTTP" →
        rest[i].Name = "http-" ++ toString (gw.Spec.Listeners.length + i)) ∧
      (gw.Spec.Listeners = [] →
        (∀ p ∈ proxies, p.Spec.Includes = [] → p.Spec.TCPProxy = none) →
        ∀ (i : Nat) (hi : i < rest.length),
          rest[i].Protocol = "HTTP" ∧ rest[i].Name = "http-" ++ toString i) := by
  have hout := convert_gateway gw proxies out h
  subst hout
  simp only [Option.some.injEq] at hg
  subst hg
  obtain ⟨rest, hrest, hnames⟩ :=
    foldl_addListener_names (proxies.filterMap proxyListener) gw.Spec.Listeners
  have hhttp : ∀ (i : Nat) (hi : i < rest.length), rest[i].Protocol = "HTTP" →
      rest[i].Name = "http-" ++ toString (gw.Spec.Listeners.length + i) := by
    intro i hi hp
    rw [(hnames i hi).1, hp, listenerName_http]
  refine ⟨rest, hrest, hhttp, ?_⟩
  intro hnil hall i hi
  have hproto : rest[i].Protocol = "HTTP" := by
    obtain ⟨l, hl, heq⟩ := (hnames i hi).2
    obtain ⟨p, hp, hpl⟩ := List.mem_filterMap.mp hl
    obtain ⟨hinc, vh, _, hcase⟩ := proxyListener_some p l hpl
    rcases hcase with ⟨_, rfl⟩ | ⟨htcp, _⟩
    · rw [heq]; rfl
    · rw [hall p hp hinc] at htcp
      exact absurd htcp (by decide)
  refine ⟨hproto, ?_⟩
  have := hhttp i hi hproto
  simpa [hnil] using this

/-- C14, witness: scenario A's proxy over a gateway that has one listener; the
appended HTTP listener is http-1. -/
theorem C14_http_listener_names_witness :
    ∃ out g rest, HTTPProxiesToGatewayResources (some plainHTTPGateway) [echoProxy] = some out ∧
      out.gateway = some g ∧
      g.Spec.Listeners = plainHTTPGateway.Spec.Listeners ++ rest ∧
      ∀ (i : Nat) (hi : i < rest.length), rest[i].Protocol = "HTTP" →
        rest[i].Name = "http-" ++ toString (plainHTTPGateway.Spec.Listeners.length + i) :=
  match C14_http_listener_names plainHTTPGateway [echoProxy] _ _ rfl rfl with
  | ⟨rest, h1, h2, _⟩ => ⟨_, _, rest, rfl, rfl, h1, h2⟩

/-- C15. Over a base gateway with no listener, two or more proxies that all have no
includes, no TCP passthrough and the same virtual-host FQDN give a gateway with
exactly one listener (HTTP, port 80, that hostname, named http-0), and still one
HTTPRoute per proxy, in order, and no TLSRoute. -/
theorem C15_shared_host_one_listener (gw : Gateway) (proxies : List HTTPProxy) (host : String)
    (hbase : gw.Spec.Listeners = []) (hlen : 2 ≤ proxies.length)
    (hall : ∀ p ∈ proxies, p.Spec.Includes = [] ∧ p.Spec.TCPProxy = none ∧
      ∃ vh, p.Spec.VirtualHost = some vh ∧ vh.Fqdn = host) :
    ∃ out g, HTTPProxiesToGatewayResources (some gw) proxies = some out ∧
      out.gateway = some g ∧
      g.Spec.Listeners =
        [{ Name := "http-0", Hostname := some host, Port := 80, Protocol := "HTTP",
           TLS := none, AllowedRoutes := none }] ∧
      out.httpRoutes.length = proxies.length ∧
      out.httpRoutes.map HTTPRoute.key = proxies.map HTTPProxy.key ∧
      out.tlsRoutes = [] := by
  have hcan : ∀ p ∈ proxies, canProcess p := by
    intro p hp
    obtain ⟨_, ht, vh, hv, _⟩ := hall p hp
    exact Or.inr ⟨vh, hv, fun h => by rw [ht] at h; exact absurd h (by decide)⟩
  have hpl : ∀ p ∈ proxies, proxyListener p = some (httpListener [] host) := by
    intro p hp
    obtain ⟨hi, ht, vh, hv, hf⟩ := hall p hp
    simp [proxyListener, hi, ht, hv, hf]
  have hsrc : proxies.filter isHTTPSource = proxies :=
    List.filter_eq_self.mpr (fun p hp => by
      obtain ⟨hi, ht, _⟩ := hall p hp
      simp [isHTTPSource, hi, ht])
  have htls : proxies.filterMap
      (tlsRouteFor (commonRouteSpecFromGateway (some gw))) = [] := by
    apply List.filterMap_eq_nil_iff.mpr
    intro p hp
    obtain ⟨hi, ht, _⟩ := hall p hp
    simp [tlsRouteFor, hi, ht]
  have hls : registerAll gw.Spec.Listeners proxies =
      [{ Name := "http-0", Hostname := some host, Port := 80, Protocol := "HTTP",
         TLS := none, AllowedRoutes := none }] := by
    rw [registerAll_eq_foldl, hbase]
    cases proxies with
    | nil => simp at hlen
    | cons p ps =>
      rw [List.filterMap_cons_some (hpl p (List.mem_cons_self _ _)), List.foldl_cons]
      have hfirst : addListener [] (httpListener [] host) =
          [{ Name := "http-0", Hostname := some host, Port := 80, Protocol := "HTTP",
             TLS := none, AllowedRoutes := none }] := rfl
      rw [hfirst]
      apply foldl_addListener_fixed
      intro l hl
      obtain ⟨q, hq, hql⟩ := List.mem_filterMap.mp hl
      rw [hpl q (List.mem_cons_of_mem _ hq)] at hql
      cases hql
      exact ⟨_, List.mem_singleton.mpr rfl, rfl, rfl, rfl⟩
  refine ⟨_, _, convert_exact gw proxies hcan, rfl, hls, ?_, ?_, htls⟩
  · simp [hsrc]
  · simp only [hsrc]
    exact httpRouteOf_keys _ proxies

/-- C15, witness: scenario A's proxy twice. -/
theorem C15_shared_host_one_listener_witness :
    ∃ out g, HTTPProxiesToGatewayResources (some contourGateway) [echoProxy, echoProxy] =
        some out ∧ out.gateway = some g ∧
      g.Spec.Listeners =
        [{ Name := "http-0", Hostname := some "echo.example.com", Port := 80,
           Protocol := "HTTP", TLS := none, AllowedRoutes := none }] ∧
      out.httpRoutes.length = [echoProxy, echoProxy].length ∧
      out.httpRoutes.map HTTPRoute.key = [echoProxy, echoProxy].map HTTPProxy.key ∧
      out.tlsRoutes = [] :=
  C15_shared_host_one_listener contourGateway [echoProxy, echoProxy] "echo.example.com" rfl
    (by decide) (fun p hp => by
      simp only [List.mem_cons, List.mem_singleton, List.not_mem_nil, or_false, or_self] at hp
      subst hp
      exact ⟨rfl, rfl, _, rfl, rfl⟩)

/-- C16. On every run that returns, the gateway returned for a supplied base
gateway equals it in name, namespace, gateway class, addresses and status, and its
listener sequence is the listener sequence of the base gateway, every inherited
listener as it was, followed by the appended listeners. The run returns when every
proxy has a virtual host (and a TLS block when it declares a passthrough). -/
theorem C16_base_gateway_preserved (gw : Gateway) (proxies : List HTTPProxy) :
    (∀ out, HTTPProxiesToGatewayResources (some gw) proxies = some out →
      ∃ g rest, out.gateway = some g ∧
        g.Name = gw.Name ∧ g.Namespace = gw.Namespace ∧
        g.Spec.GatewayClassName = gw.Spec.GatewayClassName ∧
        g.Spec.Addresses = gw.Spec.Addresses ∧ g.Status = gw.Status ∧
        g.Spec.Listeners = gw.Spec.Listeners ++ rest ∧
        g.Spec.Listeners.take gw.Spec.Listeners.length = gw.Spec.Listeners) ∧
    ((∀ p ∈ proxies, hasVirtualHost p) →
      ∃ out, HTTPProxiesToGatewayResources (some gw) proxies = some out) := by
  constructor
  · intro out hout
    have hout2 := convert_gateway gw proxies out hout
    obtain ⟨rest, hrest, _⟩ :=
      foldl_addListener_names (proxies.filterMap proxyListener) gw.Spec.Listeners
    subst hout2
    refine ⟨_, rest, rfl, rfl, rfl, rfl, rfl, rfl, hrest, ?_⟩
    show List.take gw.Spec.Listeners.length
      ((proxies.filterMap proxyListener).foldl addListener gw.Spec.Listeners) = _
    rw [hrest]
    simp
  · intro hall
    exact ⟨_, convert_exact gw proxies (fun p hp => Or.inr (hall p hp))⟩

/-- C16, witness: scenario A over the gateway whose one listener is kept in front. -/
theorem C16_base_gateway_preserved_witness :
    ∃ out g rest, HTTPProxiesToGatewayResources (some plainHTTPGateway) [echoProxy] = some out ∧
      out.gateway = some g ∧ g.Name = plainHTTPGateway.Name ∧
      g.Spec.Listeners = plainHTTPGateway.Spec.Listeners ++ rest :=
  match (C16_base_gateway_preserved plainHTTPGateway [echoProxy]).1 _ rfl with
  | ⟨g, rest, h1, h2, _, _, _, _, h3, _⟩ => ⟨_, g, rest, rfl, h1, h2, h3⟩

/-- C17, the code on two orders of one sequence. Two passthrough proxies for the
host tls.example.com name different secrets. Whichever comes first decides the
certificate of the one TLS listener the gateway gets, so the two returned gateways
do not hold the same listeners once names are disregarded: the TLS configuration
differs. -/
theorem C17_order_changes_tls_configuration :
    [tlsProxy, tlsProxyOtherSecret].Perm [tlsProxyOtherSecret, tlsProxy] ∧
    (HTTPProxiesToGatewayResources (some contourGateway) [tlsProxy, tlsProxyOtherSecret]).map
        (fun out => out.gateway.map (fun g => g.Spec.Listeners)) =
      some (some
        [{ Name := "tls-0", Hostname := some "tls.example.com", Port := 443, Protocol := "TLS"
           TLS := some
             { Mode := some "Terminate"
               CertificateRefs :=
                 [{ Group := none, Kind := none, Name := "tls-secret", Namespace := none }]
               Options := [] }
           AllowedRoutes := none }]) ∧
    (HTTPProxiesToGatewayResources (some contourGateway) [tlsProxyOtherSecret, tlsProxy]).map
        (fun out => out.gateway.map (fun g => g.Spec.Listeners)) =
      some (some
        [{ Name := "tls-0", Hostname := some "tls.example.com", Port := 443, Protocol := "TLS"
           TLS := some
             { Mode := some "Terminate"
               CertificateRefs :=
                 [{ Group := none, Kind := none, Name := "other-secret", Namespace := none }]
               Options := [] }
           AllowedRoutes := none }]) := by
  refine ⟨List.Perm.swap _ _ _, by decide, by decide⟩

/-- C18. `addListener` keeps the listeners pairwise distinct on (protocol, port,
hostname); consequently, when the listeners of the base gateway are pairwise
distinct on that triple, so are the listeners of the gateway of every run that
returns. -/
theorem C18_addListener_preserves_uniqueness (ls : List Listener) (l : Listener) :
    ((∀ (i j : Nat) (hi : i < ls.length) (hj : j < ls.length), i ≠ j →
        ¬ (ls[i].Protocol = ls[j].Protocol ∧ ls[i].Port = ls[j].Port ∧
            ls[i].Hostname = ls[j].Hostname)) →
      ∀ (i j : Nat) (hi : i < (addListener ls l).length) (hj : j < (addListener ls l).length),
        i ≠ j →
        ¬ ((addListener ls l)[i].Protocol = (addListener ls l)[j].Protocol ∧
            (addListener ls l)[i].Port = (addListener ls l)[j].Port ∧
            (addListener ls l)[i].Hostname = (addListener ls l)[j].Hostname)) ∧
    (∀ (gw : Gateway) (proxies : List HTTPProxy) (out : Output) (g : Gateway),
      distinctTriples gw.Spec.Listeners →
      HTTPProxiesToGatewayResources (some gw) proxies = some out → out.gateway = some g →
      distinctTriples g.Spec.Listeners) := by
  constructor
  · exact addListener_distinctTriples ls l
  · intro gw proxies out g hbase h hg
    obtain ⟨g0, hb, _, hp⟩ := convert_listeners distinctTriples addListener_distinctTriples
      (some gw) proxies out g h hg
    cases hb
    exact hp hbase

/-- C18, witness: the proxies of scenarios A and B, each twice, over a gateway
with one listener. -/
theorem C18_addListener_preserves_uniqueness_witness :
    ∃ out g, HTTPProxiesToGatewayResources (some plainHTTPGateway)
        [echoProxy, tlsProxy, echoProxy, tlsProxy] = some out ∧ out.gateway = some g ∧
      g.Spec.Listeners.length = 3 ∧ distinctTriples g.Spec.Listeners :=
  ⟨_, _, rfl, rfl, by decide,
    (C18_addListener_preserves_uniqueness [] plainHTTPListener).2 plainHTTPGateway
      [echoProxy, tlsProxy, echoProxy, tlsProxy] _ _
      (fun i j hi hj hij => by
        have h1 : i = 0 := by simp [plainHTTPGateway] at hi; omega
        have h2 : j = 0 := by simp [plainHTTPGateway] at hj; omega
        exact absurd (h1.trans h2.symm) hij)
      rfl rfl⟩

/-- C19. On every run that returns for a supplied base gateway, each proxy with an
empty includes list has a listener to attach to: the returned gateway holds a
listener whose hostname is present and equal to the virtual-host FQDN of the proxy
and whose protocol and port are TLS and 443 when the proxy declares a TCP
passthrough, HTTP and 80 otherwise. The run returns when every proxy has a virtual
host (and a TLS block when it declares a passthrough). -/
theorem C19_route_has_listener (gw : Gateway) (proxies : List HTTPProxy) :
    (∀ out, HTTPProxiesToGatewayResources (some gw) proxies = some out →
      ∃ g, out.gateway = some g ∧
        ∀ p ∈ proxies, p.Spec.Includes = [] →
          ∃ vh, p.Spec.VirtualHost = some vh ∧
            ∃ e ∈ g.Spec.Listeners, e.Hostname = some vh.Fqdn ∧
              e.Protocol = (if p.Spec.TCPProxy.isSome then "TLS" else "HTTP") ∧
              e.Port = (if p.Spec.TCPProxy.isSome then 443 else 80)) ∧
    ((∀ p ∈ proxies, hasVirtualHost p) →
      ∃ out, HTTPProxiesToGatewayResources (some gw) proxies = some out) := by
  constructor
  · intro out hout
    have hc := convert_canProcess (some gw) proxies out hout
    have hout2 := convert_gateway gw proxies out hout
    subst hout2
    refine ⟨_, rfl, ?_⟩
    intro p hp hi
    obtain ⟨vh, l, hv, hl, hhost, hproto, hport⟩ := proxyListener_of_canProcess p hi (hc p hp)
    have hmem : l ∈ proxies.filterMap proxyListener :=
      List.mem_filterMap.mpr ⟨p, hp, hl⟩
    obtain ⟨e, he, h1, h2, h3⟩ :=
      foldl_addListener_covers (proxies.filterMap proxyListener) gw.Spec.Listeners l hmem
    exact ⟨vh, hv, e, he, by rw [h3, hhost], by rw [h1, hproto], by rw [h2, hport]⟩
  · intro hall
    exact ⟨_, convert_exact gw proxies (fun p hp => Or.inr (hall p hp))⟩

/-- C19, witness: scenarios A and B together. -/
theorem C19_route_has_listener_witness :
    ∃ out g, HTTPProxiesToGatewayResources (some contourGateway) [echoProxy, tlsProxy] =
        some out ∧ out.gateway = some g ∧
      ∀ p ∈ [echoProxy, tlsProxy], p.Spec.Includes = [] →
        ∃ vh, p.Spec.VirtualHost = some vh ∧
          ∃ e ∈ g.Spec.Listeners, e.Hostname = some vh.Fqdn ∧
            e.Protocol = (if p.Spec.TCPProxy.isSome then "TLS" else "HTTP") ∧
            e.Port = (if p.Spec.TCPProxy.isSome then 443 else 80) :=
  match (C19_route_has_listener contourGateway [echoProxy, tlsProxy]).1 _ rfl with
  | ⟨g, h1, h2⟩ => ⟨_, g, rfl, h1, h2⟩

/-- C20. Running the function again on the gateway it returned, with the same
proxies, returns the very same result: the gateway with no listener added or
renamed, the same HTTPRoutes and the same TLSRoutes. Likewise a second
`addListener` of the same listener changes nothing. -/
theorem C20_rerun_fixed_point (gw : Gateway) (proxies : List HTTPProxy) (ls : List Listener)
    (l : Listener) :
    (∀ out, HTTPProxiesToGatewayResources (some gw) proxies = some out →
      ∃ g, out.gateway = some g ∧
        HTTPProxiesToGatewayResources (some g) proxies = some out) ∧
    addListener (addListener ls l) l = addListener ls l := by
  constructor
  · intro out hout
    have hc := convert_canProcess (some gw) proxies out hout
    have hout2 := convert_gateway gw proxies out hout
    subst hout2
    refine ⟨_, rfl, ?_⟩
    rw [convert_exact _ proxies hc, registerAll_eq_foldl]
    have hfix : (proxies.filterMap proxyListener).foldl addListener
        ((proxies.filterMap proxyListener).foldl addListener gw.Spec.Listeners) =
        (proxies.filterMap proxyListener).foldl addListener gw.Spec.Listeners :=
      foldl_addListener_fixed _ _
        (foldl_addListener_covers (proxies.filterMap proxyListener) gw.Spec.Listeners)
    show some _ = some _
    simp only [Gateway.setListeners, hfix]
    rfl
  · obtain ⟨e, he, hs⟩ := exists_sameTriple_addListener ls l
    exact addListener_of_match _ l ⟨e, he, hs⟩

/-- C20, witness: scenarios A and B, run again on the gateway they gave. -/
theorem C20_rerun_fixed_point_witness :
    ∃ out g, HTTPProxiesToGatewayResources (some contourGateway) [echoProxy, tlsProxy] =
        some out ∧ out.gateway = some g ∧ g.Spec.Listeners.length = 2 ∧
      HTTPProxiesToGatewayResources (some g) [echoProxy, tlsProxy] = some out :=
  match (C20_rerun_fixed_point contourGateway [echoProxy, tlsProxy] [] plainHTTPListener).1
      _ rfl with
  | ⟨g, h1, h2⟩ => ⟨_, g, rfl, h1, by cases h1; decide, h2⟩

end Proxy2Gateway
